import Mathlib

/-!
# goprocfs: process snapshot and filtering engine

A shallow embedding of `proc.go` / `filter.go`.

* Go strings are modelled as lists of code points (`Str`); records are taken to be valid UTF-8.
* Go `int` / `uint` are `Int` / `Nat`; the platform word size is the explicit parameter
  `intBits` (32 or 64), and every range check of the Go runtime is written out.
* `fmt.Sscan`, `strconv.ParseInt`, `strconv.ParseUint`, `strings.Trim`, `strings.TrimSpace`,
  `strings.Split` and `strings.ToLower` are embedded from the Go standard library, since
  `ProcStat.Load` and `GetFilterer` are direct calls to them.
* System lookups (`/proc` files, `stat`, user database, `ioprio_get`, `os.Getuid`) are explicit
  parameters.
* A Go runtime panic is the `panic` constructor of `Outcome`.
* The goroutines of `FilteredProcs` are a transition system on the two channels (`Scan.step`);
  a run is a list of scheduling decisions, and the theorems quantify over all of them.
-/

namespace Goprocfs

/-- Go string, as its sequence of runes. -/
abbrev Str := List Char

/-- Go error values that the modelled code can produce. -/
inductive GoError
  /-- a scan met the end of the input (io.EOF, which Sscan may report as unexpected EOF) -/
  | EOF
  /-- fmt: "expected integer" -/
  | expectedInteger
  /-- fmt: "integer overflow on token ..." / "unsigned integer overflow on token ..." -/
  | integerOverflow
  /-- strconv.ErrSyntax wrapped in a NumError -/
  | ErrSyntax
  /-- strconv.ErrRange wrapped in a NumError -/
  | ErrRange
deriving DecidableEq, Repr

/-! ## unicode / strings helpers -/

/-- The fmt package's isSpace (same set as unicode.IsSpace). -/
def isSpace (r : Char) : Bool :=
  let n := r.toNat
  (0x0009 ≤ n && n ≤ 0x000d) || n == 0x0020 || n == 0x0085 || n == 0x00a0 || n == 0x1680 ||
  (0x2000 ≤ n && n ≤ 0x200a) || (0x2028 ≤ n && n ≤ 0x2029) || n == 0x202f || n == 0x205f ||
  n == 0x3000

/-- The fmt package's notSpace. -/
def notSpace (r : Char) : Bool := !isSpace r

/-- strings.Fields: the maximal runs of non-space runes. The accumulator `cur` holds the run
being read. -/
def FieldsAux : Str → Str → List Str
  | cur, [] => if cur = [] then [] else [cur]
  | cur, c :: cs =>
    if isSpace c then (if cur = [] then FieldsAux [] cs else cur :: FieldsAux [] cs)
    else FieldsAux (cur ++ [c]) cs

/-- strings.Fields. -/
def Fields (s : Str) : List Str := FieldsAux [] s

/-- strings.TrimLeft with a cutset. -/
def TrimLeft (s cutset : Str) : Str := s.dropWhile (fun c => cutset.elem c)

/-- strings.TrimRight with a cutset. -/
def TrimRight (s cutset : Str) : Str := (s.reverse.dropWhile (fun c => cutset.elem c)).reverse

/-- strings.Trim: drop every leading and trailing rune contained in the cutset. -/
def Trim (s cutset : Str) : Str := TrimRight (TrimLeft s cutset) cutset

/-- strings.TrimSpace. -/
def TrimSpace (s : Str) : Str := ((s.dropWhile isSpace).reverse.dropWhile isSpace).reverse

/-- strings.Split with a one-rune separator; the accumulator holds the piece being read. -/
def SplitAux (sep : Char) : Str → Str → List Str
  | cur, [] => [cur]
  | cur, c :: cs => if c = sep then cur :: SplitAux sep [] cs else SplitAux sep (cur ++ [c]) cs

/-- strings.Split(s, sep) for a one-rune separator. -/
def Split (s : Str) (sep : Char) : List Str := SplitAux sep [] s

/-- The path part of a control-group string with the given segments: "/s1/s2/.../sn". -/
def joinSegments : List Str → Str
  | [] => []
  | s :: rest => '/' :: s ++ joinSegments rest

/-- ASCII part of unicode.ToLower. -/
def asciiLower (c : Char) : Char :=
  if 'A'.toNat ≤ c.toNat ∧ c.toNat ≤ 'Z'.toNat then Char.ofNat (c.toNat + 32) else c

/-- strings.ToLower: unicode.ToLower mapped over the runes. For ASCII runes the mapping is
written out; `lowerTable` stands for the lower-case mapping of the Unicode tables on the
runes above U+007F. -/
def ToLower (lowerTable : Char → Char) (s : Str) : Str :=
  s.map (fun c => if c.toNat < 0x80 then asciiLower c else lowerTable c)

/-! ## strconv -/

/-- strconv's lower(c) = c | ('x' - 'X'), on the code point. -/
def lowerByte (c : Char) : Nat := c.toNat ||| 0x20

/-- Value of one digit of ParseUint's loop, none when the rune is no digit or letter. -/
def digitVal (c : Char) : Option Nat :=
  if '0'.toNat ≤ c.toNat ∧ c.toNat ≤ '9'.toNat then some (c.toNat - '0'.toNat)
  else if 'a'.toNat ≤ lowerByte c ∧ lowerByte c ≤ 'z'.toNat then
    some (lowerByte c - 'a'.toNat + 10)
  else none

/-- The digit loop of strconv.ParseUint: returns the value and whether an underscore was
seen. -/
def parseDigits (base : Nat) (base0 : Bool) (maxVal : Nat) :
    Str → Nat → Bool → Except GoError (Nat × Bool)
  | [], n, us => .ok (n, us)
  | c :: cs, n, us =>
    if c = '_' ∧ base0 = true then parseDigits base base0 maxVal cs n true
    else match digitVal c with
      | none => .error .ErrSyntax
      | some d =>
        if d ≥ base then .error .ErrSyntax
        -- n >= cutoff, i.e. n*base overflows 64 bits
        else if n ≥ (2 ^ 64 - 1) / base + 1 then .error .ErrRange
        else if n * base + d > maxVal then .error .ErrRange
        else parseDigits base base0 maxVal cs (n * base + d) us

/-- The scanning loop of strconv's underscoreOK; `saw` is its state character. -/
def underscoreLoop (hex : Bool) : Str → Char → Bool
  | [], saw => saw != '_'
  | c :: cs, saw =>
    if ('0'.toNat ≤ c.toNat ∧ c.toNat ≤ '9'.toNat) ∨
       (hex = true ∧ 'a'.toNat ≤ lowerByte c ∧ lowerByte c ≤ 'f'.toNat) then
      underscoreLoop hex cs '0'
    else if c = '_' then
      (if saw != '0' then false else underscoreLoop hex cs '_')
    else if saw = '_' then false
    else underscoreLoop hex cs '!'

/-- strconv's underscoreOK. -/
def underscoreOK (s : Str) : Bool :=
  -- Optional sign.
  let s := if s.head? = some '-' ∨ s.head? = some '+' then s.drop 1 else s
  -- Optional base prefix.
  if 2 ≤ s.length ∧ s.head? = some '0' ∧
      (lowerByte (s.getD 1 '0') = 'b'.toNat ∨ lowerByte (s.getD 1 '0') = 'o'.toNat ∨
       lowerByte (s.getD 1 '0') = 'x'.toNat) then
    underscoreLoop (lowerByte (s.getD 1 '0') == 'x'.toNat) (s.drop 2) '0'
  else underscoreLoop false s '^'

/-- The base and the digits that strconv.ParseUint reads for base 0: the prefix switch. -/
def basePrefix (s : Str) : Nat × Str :=
  if s.head? = some '0' then
    if 3 ≤ s.length ∧ lowerByte (s.getD 1 '0') = 'b'.toNat then (2, s.drop 2)
    else if 3 ≤ s.length ∧ lowerByte (s.getD 1 '0') = 'o'.toNat then (8, s.drop 2)
    else if 3 ≤ s.length ∧ lowerByte (s.getD 1 '0') = 'x'.toNat then (16, s.drop 2)
    else (8, s.drop 1)
  else (10, s)

/-- strconv.ParseUint(s, base, bitSize) for base 0 or 2..36 and 1 ≤ bitSize ≤ 64. -/
def ParseUint (s : Str) (base bitSize : Nat) : Except GoError Nat :=
  if s = [] then .error .ErrSyntax
  else
    let bd : Nat × Str := if base = 0 then basePrefix s else (base, s)
    match parseDigits bd.1 (base == 0) (2 ^ bitSize - 1) bd.2 0 false with
    | .error e => .error e
    | .ok (n, underscores) =>
      if underscores && !underscoreOK s then .error .ErrSyntax else .ok n

/-- strconv.ParseInt(s, base, bitSize) for base 0 or 2..36 and 1 ≤ bitSize ≤ 64. A range
error of ParseUint stays a range error. -/
def ParseInt (s : Str) (base bitSize : Nat) : Except GoError Int :=
  if s = [] then .error .ErrSyntax
  else
    -- Pick off leading sign.
    let neg : Bool := s.head? = some '-'
    let t := if s.head? = some '+' ∨ s.head? = some '-' then s.drop 1 else s
    match ParseUint t base bitSize with
    | .error e => .error e
    | .ok un =>
      let cutoff := 2 ^ (bitSize - 1)
      if !neg && un ≥ cutoff then .error .ErrRange
      else if neg && un > cutoff then .error .ErrRange
      else .ok (if neg then -(un : Int) else (un : Int))

/-- strconv.Atoi: ParseInt(s, 10, 0), the bit size being that of int. -/
def Atoi (intBits : Nat) (s : Str) : Except GoError Int := ParseInt s 10 intBits

/-! ## fmt.Sscan -/

def sign : Str := "+-".toList
def binaryDigits : Str := "01".toList
def octalDigits : Str := "01234567".toList
def decimalDigits : Str := "0123456789".toList
def hexadecimalDigits : Str := "0123456789aAbBcCdDeEfF".toList

/-- The scanner's SkipSpace when newlines count as space (Sscan). -/
def SkipSpace (s : Str) : Str := s.dropWhile isSpace

/-- The scanner's peek: is the next rune in `ok` (false at the end of the input). -/
def peek (ok : Str) (s : Str) : Bool :=
  match s with
  | c :: _ => ok.elem c
  | [] => false

/-- The scanner's accept: move the next rune to the token buffer when it is in `ok`. -/
def accept (ok : Str) (buf s : Str) : Str × Str :=
  match s with
  | c :: cs => if ok.elem c then (buf ++ [c], cs) else (buf, s)
  | [] => (buf, s)

/-- The scanner's scanBasePrefix: digit set, whether a digit was read, buffer, rest. -/
def scanBasePrefix (buf s : Str) : Str × Bool × Str × Str :=
  if !peek "0".toList s then (decimalDigits ++ ['_'], false, buf, s)
  else
    let z := accept "0".toList buf s
    -- Special cases for 0, 0b, 0o, 0x.
    if peek "bB".toList z.2 then
      (binaryDigits ++ ['_'], true, (accept "bB".toList z.1 z.2).1, (accept "bB".toList z.1 z.2).2)
    else if peek "oO".toList z.2 then
      (octalDigits ++ ['_'], true, (accept "oO".toList z.1 z.2).1, (accept "oO".toList z.1 z.2).2)
    else if peek "xX".toList z.2 then
      (hexadecimalDigits ++ ['_'], true, (accept "xX".toList z.1 z.2).1,
        (accept "xX".toList z.1 z.2).2)
    else (octalDigits ++ ['_'], true, z.1, z.2)

/-- The scanner's scanNumber: the token and the rest of the input. -/
def scanNumber (digits : Str) (haveDigits : Bool) (buf s : Str) : Except GoError (Str × Str) :=
  if haveDigits then
    .ok (buf ++ s.takeWhile (fun c => digits.elem c), s.dropWhile (fun c => digits.elem c))
  else match s with
    | [] => .error .EOF
    | c :: cs =>
      if digits.elem c then
        .ok (buf ++ c :: cs.takeWhile (fun c => digits.elem c),
             cs.dropWhile (fun c => digits.elem c))
      else .error .expectedInteger

/-- The scanner's scanInt for verb v: value and rest of the input. -/
def scanInt (bitSize : Nat) (input : Str) : Except GoError (Int × Str) :=
  let s := SkipSpace input
  if s = [] then .error .EOF
  else
    let sg := accept sign [] s
    let bp := scanBasePrefix sg.1 sg.2
    match scanNumber bp.1 bp.2.1 bp.2.2.1 bp.2.2.2 with
    | .error e => .error e
    | .ok (tok, rest) =>
      match ParseInt tok 0 64 with
      | .error e => .error e
      | .ok i =>
        -- x := (i << (64 - n)) >> (64 - n); x != i
        if (i + 2 ^ (bitSize - 1)) % 2 ^ bitSize - 2 ^ (bitSize - 1) ≠ i then
          .error .integerOverflow
        else .ok (i, rest)

/-- The scanner's scanUint for verb v: value and rest of the input. -/
def scanUint (bitSize : Nat) (input : Str) : Except GoError (Nat × Str) :=
  let s := SkipSpace input
  if s = [] then .error .EOF
  else
    let bp := scanBasePrefix [] s
    match scanNumber bp.1 bp.2.1 bp.2.2.1 bp.2.2.2 with
    | .error e => .error e
    | .ok (tok, rest) =>
      match ParseUint tok 0 64 with
      | .error e => .error e
      | .ok i =>
        -- x := (i << (64 - n)) >> (64 - n); x != i
        if i % 2 ^ bitSize ≠ i then .error .integerOverflow
        else .ok (i, rest)

/-- The scanner's convertString for verb v: the next space-delimited word. -/
def convertString (input : Str) : Except GoError (Str × Str) :=
  let s := SkipSpace input
  if s = [] then .error .EOF
  else .ok (s.takeWhile notSpace, s.dropWhile notSpace)

/-- One pointer argument of Sscan, with the assignment through the pointer. -/
inductive Arg (σ : Type)
  | int (set : σ → Int → σ)
  | uint (set : σ → Nat → σ)
  | uint64 (set : σ → Nat → σ)
  | string (set : σ → Str → σ)

/-- The scanner's scanOne for verb v. -/
def scanOne {σ : Type} (intBits : Nat) (a : Arg σ) (v : σ) (s : Str) :
    Except GoError (σ × Str) :=
  match a with
  | .int set => (scanInt intBits s).map (fun r => (set v r.1, r.2))
  | .uint set => (scanUint intBits s).map (fun r => (set v r.1, r.2))
  | .uint64 set => (scanUint 64 s).map (fun r => (set v r.1, r.2))
  | .string set => (convertString s).map (fun r => (set v r.1, r.2))

/-- The scanner's doScan: the arguments are scanned in order, the first error stops the scan
and the values stored so far stay stored. -/
def doScan {σ : Type} (intBits : Nat) : List (Arg σ) → σ → Str → σ × Option GoError
  | [], v, _ => (v, none)
  | a :: as, v, s =>
    match scanOne intBits a v s with
    | .error e => (v, some e)
    | .ok (v2, s2) => doScan intBits as v2 s2

/-! ## ProcStat -/

/-- The ProcStat struct of proc.go. -/
structure ProcStat where
  stat : Str := []
  Pid : Int := 0
  Comm : Str := []
  State : Str := []
  Ppid : Int := 0
  Pgrp : Int := 0
  Session : Int := 0
  TtyNr : Int := 0
  TPGid : Int := 0
  Flags : Nat := 0
  MinFlt : Nat := 0
  CMinFlt : Nat := 0
  MajFlt : Nat := 0
  CMajFlt : Nat := 0
  UTime : Nat := 0
  STime : Nat := 0
  CUTime : Int := 0
  CSTime : Int := 0
  Priority : Int := 0
  Nice : Int := 0
  NumThreads : Int := 0
  ITRealValue : Int := 0
  StartTime : Nat := 0
  VSize : Nat := 0
  Rss : Int := 0
  RssLim : Nat := 0
  StartCode : Nat := 0
  EndCode : Nat := 0
  StartStack : Nat := 0
  KStkESP : Nat := 0
  KStkEIP : Nat := 0
  Signal : Nat := 0
  Blocked : Nat := 0
  SigIgnore : Nat := 0
  SigCatch : Nat := 0
  WChan : Nat := 0
  NSwap : Nat := 0
  CNSwap : Nat := 0
  ExitSignal : Int := 0
  Processor : Int := 0
  RTPrio : Int := 0
  Policy : Int := 0
  DelayAcctBlkIOTicks : Nat := 0
  GuestTime : Nat := 0
  CGuestTime : Int := 0
  StartData : Nat := 0
  EndData : Nat := 0
  StartBrk : Nat := 0
  ArgStart : Nat := 0
  ArgEnd : Nat := 0
  EnvStart : Nat := 0
  EnvEnd : Nat := 0
  ExitCode : Int := 0
deriving DecidableEq

/-- The local variable `comm` of Load together with the receiver. -/
structure LoadVars where
  comm : Str
  stat : ProcStat

/-- The 52 pointer arguments of the Sscan call in Load, in order. -/
def loadArgs : List (Arg LoadVars) := [
  .int (fun v x => { v with stat := { v.stat with Pid := x } }),
  .string (fun v x => { v with comm := x }),
  .string (fun v x => { v with stat := { v.stat with State := x } }),
  .int (fun v x => { v with stat := { v.stat with Ppid := x } }),
  .int (fun v x => { v with stat := { v.stat with Pgrp := x } }),
  .int (fun v x => { v with stat := { v.stat with Session := x } }),
  .int (fun v x => { v with stat := { v.stat with TtyNr := x } }),
  .int (fun v x => { v with stat := { v.stat with TPGid := x } }),
  .uint (fun v x => { v with stat := { v.stat with Flags := x } }),
  .uint (fun v x => { v with stat := { v.stat with MinFlt := x } }),
  .uint (fun v x => { v with stat := { v.stat with CMinFlt := x } }),
  .uint (fun v x => { v with stat := { v.stat with MajFlt := x } }),
  .uint (fun v x => { v with stat := { v.stat with CMajFlt := x } }),
  .uint (fun v x => { v with stat := { v.stat with UTime := x } }),
  .uint (fun v x => { v with stat := { v.stat with STime := x } }),
  .int (fun v x => { v with stat := { v.stat with CUTime := x } }),
  .int (fun v x => { v with stat := { v.stat with CSTime := x } }),
  .int (fun v x => { v with stat := { v.stat with Priority := x } }),
  .int (fun v x => { v with stat := { v.stat with Nice := x } }),
  .int (fun v x => { v with stat := { v.stat with NumThreads := x } }),
  .int (fun v x => { v with stat := { v.stat with ITRealValue := x } }),
  .uint64 (fun v x => { v with stat := { v.stat with StartTime := x } }),
  .uint (fun v x => { v with stat := { v.stat with VSize := x } }),
  .int (fun v x => { v with stat := { v.stat with Rss := x } }),
  .uint (fun v x => { v with stat := { v.stat with RssLim := x } }),
  .uint (fun v x => { v with stat := { v.stat with StartCode := x } }),
  .uint (fun v x => { v with stat := { v.stat with EndCode := x } }),
  .uint (fun v x => { v with stat := { v.stat with StartStack := x } }),
  .uint (fun v x => { v with stat := { v.stat with KStkESP := x } }),
  .uint (fun v x => { v with stat := { v.stat with KStkEIP := x } }),
  .uint (fun v x => { v with stat := { v.stat with Signal := x } }),
  .uint (fun v x => { v with stat := { v.stat with Blocked := x } }),
  .uint (fun v x => { v with stat := { v.stat with SigIgnore := x } }),
  .uint (fun v x => { v with stat := { v.stat with SigCatch := x } }),
  .uint (fun v x => { v with stat := { v.stat with WChan := x } }),
  .uint (fun v x => { v with stat := { v.stat with NSwap := x } }),
  .uint (fun v x => { v with stat := { v.stat with CNSwap := x } }),
  .int (fun v x => { v with stat := { v.stat with ExitSignal := x } }),
  .int (fun v x => { v with stat := { v.stat with Processor := x } }),
  .int (fun v x => { v with stat := { v.stat with RTPrio := x } }),
  .int (fun v x => { v with stat := { v.stat with Policy := x } }),
  .uint64 (fun v x => { v with stat := { v.stat with DelayAcctBlkIOTicks := x } }),
  .uint (fun v x => { v with stat := { v.stat with GuestTime := x } }),
  .int (fun v x => { v with stat := { v.stat with CGuestTime := x } }),
  .uint (fun v x => { v with stat := { v.stat with StartData := x } }),
  .uint (fun v x => { v with stat := { v.stat with EndData := x } }),
  .uint (fun v x => { v with stat := { v.stat with StartBrk := x } }),
  .uint (fun v x => { v with stat := { v.stat with ArgStart := x } }),
  .uint (fun v x => { v with stat := { v.stat with ArgEnd := x } }),
  .uint (fun v x => { v with stat := { v.stat with EnvStart := x } }),
  .uint (fun v x => { v with stat := { v.stat with EnvEnd := x } }),
  .int (fun v x => { v with stat := { v.stat with ExitCode := x } })]

/-- ProcStat.Load: the receiver after the call and the returned error. -/
def ProcStat.Load (intBits : Nat) (stat : ProcStat) (buffer : Str) : ProcStat × Option GoError :=
  let r := doScan intBits loadArgs { comm := [], stat := { stat with stat := buffer } } buffer
  ({ r.1.stat with Comm := Trim r.1.comm "()".toList }, r.2)

/-- The sample record of proc.go, line 252. -/
def nvimRecord : Str :=
  ("14066 (nvim) S 14064 14063 14063 0 -1 4194304 5898 6028 495 394 487 64 88 68 39 19 1 0 " ++
   "1256778 18685952 2655 4294967295 4620288 7319624 3219630688 0 0 0 0 2 536891909 1 0 0 17 " ++
   "0 0 0 0 0 0 8366744 8490776 38150144 3219638342 3219638506 3219638506 3219644398 0").toList

/-- The verb %d of fmt on an int. -/
def FormatInt (i : Int) : Str :=
  if i < 0 then '-' :: Nat.toDigits 10 i.natAbs else Nat.toDigits 10 i.toNat

/-- The verb %d of fmt on a uint or uint64. -/
def FormatUint (n : Nat) : Str := Nat.toDigits 10 n

/-- ProcStat.String: fmt.Sprintf with the format stProcStat of proc.go, lines 45 to 98. -/
def ProcStat.String (stat : ProcStat) : Str :=
  "\x7bPid: ".toList ++ FormatInt stat.Pid ++ ", ".toList ++
  "Comm: ".toList ++ stat.Comm ++ ", ".toList ++
  "State: ".toList ++ stat.State ++ ", ".toList ++
  "Ppid: ".toList ++ FormatInt stat.Ppid ++ ", ".toList ++
  "Pgrp: ".toList ++ FormatInt stat.Pgrp ++ ", ".toList ++
  "Session: ".toList ++ FormatInt stat.Session ++ ", ".toList ++
  "TtyNr: ".toList ++ FormatInt stat.TtyNr ++ ", ".toList ++
  "TPGid: ".toList ++ FormatInt stat.TPGid ++ ", ".toList ++
  "Flags: ".toList ++ FormatUint stat.Flags ++ ", ".toList ++
  "MinFlt: ".toList ++ FormatUint stat.MinFlt ++ ", ".toList ++
  "CMinFlt: ".toList ++ FormatUint stat.CMinFlt ++ ", ".toList ++
  "MajFlt: ".toList ++ FormatUint stat.MajFlt ++ ", ".toList ++
  "CMajFlt: ".toList ++ FormatUint stat.CMajFlt ++ ", ".toList ++
  "UTime: ".toList ++ FormatUint stat.UTime ++ ", ".toList ++
  "STime: ".toList ++ FormatUint stat.STime ++ ", ".toList ++
  "CUTime: ".toList ++ FormatInt stat.CUTime ++ ", ".toList ++
  "CSTime: ".toList ++ FormatInt stat.CSTime ++ ", ".toList ++
  "Priority: ".toList ++ FormatInt stat.Priority ++ ", ".toList ++
  "Nice: ".toList ++ FormatInt stat.Nice ++ ", ".toList ++
  "NumThreads: ".toList ++ FormatInt stat.NumThreads ++ ", ".toList ++
  "ITRealValue: ".toList ++ FormatInt stat.ITRealValue ++ ", ".toList ++
  "StartTime: ".toList ++ FormatUint stat.StartTime ++ ", ".toList ++
  "VSize: ".toList ++ FormatUint stat.VSize ++ ", ".toList ++
  "Rss: ".toList ++ FormatInt stat.Rss ++ ", ".toList ++
  "RssLim: ".toList ++ FormatUint stat.RssLim ++ ", ".toList ++
  "StartCode: ".toList ++ FormatUint stat.StartCode ++ ", ".toList ++
  "EndCode: ".toList ++ FormatUint stat.EndCode ++ ", ".toList ++
  "StartStack: ".toList ++ FormatUint stat.StartStack ++ ", ".toList ++
  "KStkESP: ".toList ++ FormatUint stat.KStkESP ++ ", ".toList ++
  "KStkEIP: ".toList ++ FormatUint stat.KStkEIP ++ ", ".toList ++
  "Signal: ".toList ++ FormatUint stat.Signal ++ ", ".toList ++
  "Blocked: ".toList ++ FormatUint stat.Blocked ++ ", ".toList ++
  "SigIgnore: ".toList ++ FormatUint stat.SigIgnore ++ ", ".toList ++
  "SigCatch: ".toList ++ FormatUint stat.SigCatch ++ ", ".toList ++
  "WChan: ".toList ++ FormatUint stat.WChan ++ ", ".toList ++
  "NSwap: ".toList ++ FormatUint stat.NSwap ++ ", ".toList ++
  "CNSwap: ".toList ++ FormatUint stat.CNSwap ++ ", ".toList ++
  "ExitSignal: ".toList ++ FormatInt stat.ExitSignal ++ ", ".toList ++
  "Processor: ".toList ++ FormatInt stat.Processor ++ ", ".toList ++
  "RTPrio: ".toList ++ FormatInt stat.RTPrio ++ ", ".toList ++
  "Policy: ".toList ++ FormatInt stat.Policy ++ ", ".toList ++
  "DelayAcctBlkIOTicks: ".toList ++ FormatUint stat.DelayAcctBlkIOTicks ++ ", ".toList ++
  "GuestTime: ".toList ++ FormatUint stat.GuestTime ++ ", ".toList ++
  "CGuestTime: ".toList ++ FormatInt stat.CGuestTime ++ ", ".toList ++
  "StartData: ".toList ++ FormatUint stat.StartData ++ ", ".toList ++
  "EndData: ".toList ++ FormatUint stat.EndData ++ ", ".toList ++
  "StartBrk: ".toList ++ FormatUint stat.StartBrk ++ ", ".toList ++
  "ArgStart: ".toList ++ FormatUint stat.ArgStart ++ ", ".toList ++
  "ArgEnd: ".toList ++ FormatUint stat.ArgEnd ++ ", ".toList ++
  "EnvStart: ".toList ++ FormatUint stat.EnvStart ++ ", ".toList ++
  "EnvEnd: ".toList ++ FormatUint stat.EnvEnd ++ ", ".toList ++
  "ExitCode: ".toList ++ FormatInt stat.ExitCode ++ "\x7d".toList

/-! ## System interface -/

/-- Result of a Go call that may end in a runtime panic. -/
inductive Outcome (α : Type)
  | ok (a : α)
  | panic
deriving DecidableEq

/-- The user.User struct of os/user. -/
structure User where
  Uid : Str := []
  Gid : Str := []
  Username : Str := []
  Name : Str := []
  HomeDir : Str := []
deriving DecidableEq

/-- What the code reads from the operating system and the platform. -/
structure Sys where
  /-- size of int and uint in bits -/
  intBits : Nat
  /-- the Unicode lower-case mapping on non-ASCII runes -/
  lowerTable : Char → Char
  /-- os.Getuid() -/
  getuid : Int
  /-- unix.Stat("/proc/pid"): the Uid of the result (a uint32), none when the call fails -/
  statUid : Int → Option Nat
  /-- user.LookupId(strconv.Itoa(uid)), none when it returns an error -/
  lookupId : Int → Option User
  /-- ioutil.ReadFile("/proc/pid/rc"), none when it returns an error -/
  readFile : Int → Str → Option Str
  /-- the ioprio_get system call for a process, none when errno is set -/
  ioprioGet : Int → Option Nat

/-- Conversion of an unsigned machine word to int. -/
def toInt (bits : Nat) (n : Nat) : Int :=
  ((n : Int) + 2 ^ (bits - 1)) % 2 ^ bits - 2 ^ (bits - 1)

/-- GetResource. -/
def GetResource (sys : Sys) (pid : Int) (rc : Str) : Option Str := sys.readFile pid rc

/-- GetUid. -/
def GetUid (sys : Sys) (pid : Int) : Int :=
  match sys.statUid pid with
  | some uid => toInt sys.intBits uid
  | none => -1

/-- GetUser. -/
def GetUser (sys : Sys) (uid : Int) : Option User := sys.lookupId uid

/-- GetCgroup: the named result err is never assigned (the err of the if statement shadows
it), so the returned error is always nil and the string is empty when the read fails. -/
def GetCgroup (sys : Sys) (pid : Int) : Str × Option GoError :=
  match GetResource sys pid "cgroup".toList with
  | some data => (TrimSpace data, none)
  | none => ([], none)

/-- GetOomScoreAdj: Atoi's result when the file is read, (0, nil) when it is not. Next to a
range error Atoi returns the nearest int of the sign of the input, next to a syntax error 0. -/
def GetOomScoreAdj (sys : Sys) (pid : Int) : Int × Option GoError :=
  match GetResource sys pid "oom_score_adj".toList with
  | some data =>
    match Atoi sys.intBits (TrimSpace data) with
    | .ok v => (v, none)
    | .error .ErrRange =>
      (if (TrimSpace data).head? = some '-' then -(2 ^ (sys.intBits - 1))
       else 2 ^ (sys.intBits - 1) - 1, some .ErrRange)
    | .error e => (0, some e)
  | none => (0, none)

def IOPRIO_CLASS_SHIFT : Nat := 13

/-- IOPrio_Get: the value, or none for the (-1, errno) return. -/
def IOPrio_Get (sys : Sys) (pid : Int) : Option Int :=
  match sys.ioprioGet pid with
  | some v => some (toInt sys.intBits v)
  | none => none

/-- IOPrio_Split: the class and data stored through the two pointers. -/
def IOPrio_Split (ioprio : Int) : Int × Int :=
  (ioprio >>> IOPRIO_CLASS_SHIFT, Int.land ioprio 0xff)

/-! ## Proc -/

/-- A [3]string array. -/
structure Str3 where
  at0 : Str := []
  at1 : Str := []
  at2 : Str := []
deriving DecidableEq

/-- The Proc struct: an embedded ProcStat and the enrichment fields. -/
structure Proc extends ProcStat where
  Uid : Int := 0
  owner : User := {}
  Cgroup : Str3 := {}
  OomScoreAdj : Int := 0
  IOPrioClass : Int := 0
  IOPrioData : Int := 0
deriving DecidableEq

/-- Proc.setUser. -/
def Proc.setUser (sys : Sys) (p : Proc) : Outcome (Proc × Option GoError) :=
  let p := { p with Uid := GetUid sys p.Pid }
  match GetUser sys p.Uid with
  | some owner => .ok ({ p with owner := owner }, none)
  | none => .ok (p, none)

/-- Proc.setCgroup; indexing parts[1] panics when the split has a single part. -/
def Proc.setCgroup (sys : Sys) (p : Proc) : Outcome (Proc × Option GoError) :=
  match GetCgroup sys p.Pid with
  | (cgroup, none) =>
    if cgroup ≠ "0::/".toList then
      let parts := Split cgroup '/'
      match parts.get? 1, parts.getLast? with
      | some first, some last => .ok ({ p with Cgroup := ⟨cgroup, first, last⟩ }, none)
      | _, _ => .panic
    else .ok ({ p with Cgroup := ⟨"0::/".toList, [], []⟩ }, none)
  | (_, some _) => .ok (p, none)

/-- Proc.setOomScoreAdj. -/
def Proc.setOomScoreAdj (sys : Sys) (p : Proc) : Outcome (Proc × Option GoError) :=
  match GetOomScoreAdj sys p.Pid with
  | (scoreadj, none) => .ok ({ p with OomScoreAdj := scoreadj }, none)
  | (_, some _) => .ok (p, none)

/-- Proc.setIOPrio. -/
def Proc.setIOPrio (sys : Sys) (p : Proc) : Outcome (Proc × Option GoError) :=
  match IOPrio_Get sys p.Pid with
  | some ioprio =>
    .ok ({ p with IOPrioClass := (IOPrio_Split ioprio).1,
                  IOPrioData := (IOPrio_Split ioprio).2 }, none)
  | none => .ok (p, none)

/-- Proc.setters. -/
def Proc.setters (sys : Sys) : List (Proc → Outcome (Proc × Option GoError)) :=
  [Proc.setUser sys, Proc.setCgroup sys, Proc.setOomScoreAdj sys, Proc.setIOPrio sys]

/-- The loop of NewProcFromStat over the setters: stop at the first non-nil error. -/
def runSetters : List (Proc → Outcome (Proc × Option GoError)) → Proc →
    Outcome (Proc × Option GoError)
  | [], p => .ok (p, none)
  | f :: fs, p =>
    match f p with
    | .panic => .panic
    | .ok (p2, some e) => .ok (p2, some e)
    | .ok (p2, none) => runSetters fs p2

/-- NewProcFromStat; the line it prints on standard error when Load fails is left out. -/
def NewProcFromStat (sys : Sys) (stat : Str) : Outcome (Proc × Option GoError) :=
  let p : Proc := {}
  let r := ProcStat.Load sys.intBits p.toProcStat stat
  let p : Proc := { p with toProcStat := r.1 }
  match r.2 with
  | some e => .ok (p, some e)
  | none => runSetters (Proc.setters sys) p

/-- Proc.Username. -/
def Proc.Username (p : Proc) : Str := p.owner.Username

/-- Proc.InUserSlice. -/
def Proc.InUserSlice (p : Proc) : Bool := p.Cgroup.at1 == "user.slice".toList

/-- Proc.InSystemSlice. -/
def Proc.InSystemSlice (p : Proc) : Bool := !(p.InUserSlice)

/-! ## Filters -/

/-- The ProcFilter struct. -/
structure ProcFilter where
  scope : Str
  filter : Proc → Option GoError → Bool
  message : Str

/-- ProcFilter.Filter. -/
def ProcFilter.Filter (pf : ProcFilter) (p : Proc) (err : Option GoError) : Bool :=
  pf.filter p err

/-- ProcFilter.String. -/
def ProcFilter.String (pf : ProcFilter) : Str := pf.message

/-- GetFilterer. -/
def GetFilterer (sys : Sys) (scope : Str) : ProcFilter :=
  let s := ToLower sys.lowerTable scope
  if s = "global".toList then
    { scope := "global".toList
      filter := fun p err => err == none && p.InUserSlice
      message := "processes inside any user slice".toList }
  else if s = "system".toList then
    { scope := "system".toList
      filter := fun p err => err == none && p.InSystemSlice
      message := "processes inside system slice".toList }
  else if s = "all".toList then
    { scope := "all".toList
      filter := fun _ err => err == none
      message := "all processes".toList }
  else
    -- Default is user
    { scope := "user".toList
      filter := fun p err => err == none && p.Uid == sys.getuid && p.InUserSlice
      message := "calling user processes".toList }

/-! ## Scan pipeline -/

/-- ProcByPid.Less, on the two elements compared. -/
def ProcByPid.Less (a b : Proc) : Bool := a.Pid < b.Pid

/-- One insertion of sort.Sort's insertion sort: the element moves left while it is less than
its neighbour, i.e. it lands in front of the first element it is less than. -/
def sortInsert {α : Type} (less : α → α → Bool) (x : α) : List α → List α
  | [] => [x]
  | y :: ys => if less x y then x :: y :: ys else y :: sortInsert less x ys

/-- sort.Sort, driven only by the Less method: insertion sort, the algorithm the Go library
uses on short slices. On long slices the library picks other comparison sorts, which may
order elements that compare equal in another way. -/
def sortSort {α : Type} (less : α → α → Bool) (data : List α) : List α :=
  data.foldl (fun sorted x => sortInsert less x sorted) []

/-- State of one run of FilteredProcs. -/
structure Scan where
  /-- len(files): capacity of both channels -/
  size : Nat
  /-- files the dispatcher has still to read: the content, or none when ReadFile fails -/
  files : List (Option Str)
  /-- records buffered in channel stats -/
  stats : List Str
  /-- per worker goroutine: the accepted descriptor it has still to send -/
  workers : List (Option Proc)
  /-- descriptors buffered in channel procs -/
  procs : List Proc
  /-- the result slice of the collecting loop -/
  result : List Proc
  /-- number of sends on stats so far -/
  statsSent : Nat
  /-- number of sends on procs so far -/
  procsSent : Nat
  /-- a worker goroutine panicked -/
  panicked : Bool

/-- One scheduling decision: which goroutine performs its next channel operation. -/
inductive Action
  /-- the dispatcher reads the next file and sends the record on stats -/
  | dispatch
  /-- worker i receives a record from stats and runs NewProcFromStat and the filter -/
  | work (i : Nat)
  /-- worker i sends its accepted descriptor on procs -/
  | send (i : Nat)
  /-- the caller receives a descriptor from procs and appends it to result -/
  | collect
deriving DecidableEq

/-- Effect of one scheduling decision; a goroutine that cannot proceed (empty or full
channel, nothing to do) leaves the state as it is. -/
def Scan.step (sys : Sys) (filter : ProcFilter) (st : Scan) (a : Action) : Scan :=
  if st.panicked then st
  else match a with
  | .dispatch =>
    match st.files with
    | [] => st
    | none :: fs => { st with files := fs }
    | some data :: fs =>
      if st.stats.length < st.size then
        { st with files := fs, stats := st.stats ++ [data], statsSent := st.statsSent + 1 }
      else st
  | .work i =>
    match st.workers.get? i, st.stats with
    | some none, stat :: rest =>
      match NewProcFromStat sys stat with
      | .panic => { st with stats := rest, panicked := true }
      | .ok (p, err) =>
        if filter.Filter p err then
          { st with stats := rest, workers := st.workers.set i (some p) }
        else { st with stats := rest }
    | _, _ => st
  | .send i =>
    match st.workers.get? i with
    | some (some p) =>
      if st.procs.length < st.size then
        { st with workers := st.workers.set i none, procs := st.procs ++ [p],
                  procsSent := st.procsSent + 1 }
      else st
    | _ => st
  | .collect =>
    match st.procs with
    | p :: ps => { st with procs := ps, result := st.result ++ [p] }
    | [] => st

/-- The state after a sequence of scheduling decisions. -/
def Scan.run (sys : Sys) (filter : ProcFilter) (st : Scan) (sched : List Action) : Scan :=
  sched.foldl (Scan.step sys filter) st

/-- The state in which FilteredProcs starts its goroutines: `files` are the globbed stat
files, `count` is runtime.GOMAXPROCS(0). -/
def Scan.init (files : List (Option Str)) (count : Nat) : Scan :=
  { size := files.length, files := files, stats := [], workers := List.replicate count none,
    procs := [], result := [], statsSent := 0, procsSent := 0, panicked := false }

/-- Every file is dispatched, both channels are drained and every worker is idle: the
collecting loop ends. -/
def Scan.finished (st : Scan) : Bool :=
  st.files.isEmpty && st.stats.isEmpty && st.workers.all (fun w => w.isNone) && st.procs.isEmpty

/-- FilteredProcs under a schedule of its goroutines: the sorted result when the schedule
runs the scan to its end, a panic when a worker panics, none when the schedule stops before
the scan is over. -/
def FilteredProcs (sys : Sys) (filter : ProcFilter) (files : List (Option Str)) (count : Nat)
    (sched : List Action) : Option (Outcome (List Proc)) :=
  let st := Scan.run sys filter (Scan.init files count) sched
  if st.panicked then some .panic
  else if st.finished then some (.ok (sortSort ProcByPid.Less st.result))
  else none

/-- AllProcs. -/
def AllProcs (sys : Sys) (files : List (Option Str)) (count : Nat) (sched : List Action) :
    Option (Outcome (List Proc)) :=
  FilteredProcs sys (GetFilterer sys "all".toList) files count sched

/-! ## Vocabulary of the record-parser theorems -/

/-- The rune is one of the ten decimal digits. -/
def isDigit (c : Char) : Bool := decimalDigits.elem c

/-- Decimal value of a digit string read after the value n. -/
def decFold (n : Nat) (ds : Str) : Nat :=
  ds.foldl (fun n c => n * 10 + (c.toNat - '0'.toNat)) n

/-- A plain digit string: "0", or decimal digits that do not start with '0'. -/
def isPlainDigits (ds : Str) : Bool :=
  !ds.isEmpty && ds.all isDigit && (ds.head? != some '0' || ds.length == 1)

/-- The token without its leading sign. -/
def unsign (t : Str) : Str :=
  if t.head? = some '+' ∨ t.head? = some '-' then t.drop 1 else t

/-- A plain decimal numeral: an optional sign and a plain digit string. -/
def isPlainNum (t : Str) : Bool := isPlainDigits (unsign t)

/-- The number a plain decimal numeral denotes. -/
def numValue (t : Str) : Int :=
  if t.head? = some '-' then -(decFold 0 (unsign t) : Int) else (decFold 0 (unsign t) : Int)

/-- The tokens of a record in which the first token and every token after the third (the
tokens of the numeric fields) are plain decimal numerals. -/
def plainTokens : List Str → Bool
  | pid :: _ :: _ :: rest => isPlainNum pid && rest.all isPlainNum
  | pid :: _ => isPlainNum pid
  | [] => true

/-- The argument is a pointer to a number. -/
def Arg.isNumeric {σ : Type} : Arg σ → Bool
  | .string _ => false
  | _ => true

/-- The plain numeral does not fit the type the argument points to: a value outside the int
range for an int, a negative numeral or a value above the uint (uint64) range for a uint
(uint64). -/
def Arg.outOfRange {σ : Type} (intBits : Nat) : Arg σ → Str → Bool
  | .int _, t =>
    decide (numValue t < -(2 ^ (intBits - 1) : Int) ∨ (2 ^ (intBits - 1) : Int) ≤ numValue t)
  | .uint _, t => t.head? == some '-' || decide (2 ^ intBits ≤ decFold 0 (unsign t))
  | .uint64 _, t => t.head? == some '-' || decide (2 ^ 64 ≤ decFold 0 (unsign t))
  | .string _, _ => false

/-- The assignment through the argument leaves the component `f` of the variables as it
is. -/
def Arg.keeps {σ β : Type} (f : σ → β) : Arg σ → Prop
  | .int set => ∀ v x, f (set v x) = f v
  | .uint set => ∀ v x, f (set v x) = f v
  | .uint64 set => ∀ v x, f (set v x) = f v
  | .string set => ∀ v x, f (set v x) = f v

/-- The first token of the input. -/
def firstToken (s : Str) : Str := (SkipSpace s).takeWhile notSpace

/-- The input after its first token. -/
def afterToken (s : Str) : Str := (SkipSpace s).dropWhile notSpace

/-- Every token that meets a numeric argument is a plain decimal numeral. -/
def alignedTokens {σ : Type} : List (Arg σ) → List Str → Bool
  | a :: as, t :: ts => (!a.isNumeric || isPlainNum t) && alignedTokens as ts
  | _, _ => true

/-! ## Sample values used to instantiate the theorems -/

/-- A system in which pid 14066 belongs to uid 1000 inside a user slice. -/
def sampleSys : Sys where
  intBits := 64
  lowerTable := fun c => c
  getuid := 1000
  statUid := fun pid => if pid = 14066 then some 1000 else none
  lookupId := fun uid => if uid = 1000 then some { Username := "david".toList } else none
  readFile := fun pid rc =>
    if rc = "cgroup".toList then
      (if pid = 14066 then some "0::/user.slice/user-1000.slice/session-2.scope\n".toList
       else some "0::/system.slice/cron.service\n".toList)
    else if rc = "oom_score_adj".toList then some "200\n".toList
    else none
  ioprioGet := fun pid => if pid = 14066 then some 16388 else none

/-- A descriptor of the calling user inside the user slice. -/
def sampleProc : Proc :=
  { Uid := 1000
    Cgroup := ⟨"0::/user.slice/a.scope".toList, "user.slice".toList, "a.scope".toList⟩ }

/-- A record whose command field is "(my proc (v2))", the other fields being those of the
sample record. -/
def spacedRecord : Str :=
  ("14066 (my proc (v2)) S 14064 14063 14063 0 -1 4194304 5898 6028 495 394 487 64 88 68 39 " ++
   "19 1 0 1256778 18685952 2655 4294967295 4620288 7319624 3219630688 0 0 0 0 2 536891909 " ++
   "1 0 0 17 0 0 0 0 0 0 8366744 8490776 38150144 3219638342 3219638506 3219638506 " ++
   "3219644398 0").toList

/-- A second record, of a process with pid 7. -/
def cronRecord : Str :=
  ("7 (cron) S 1 7 7 0 -1 4194304 5898 6028 495 394 487 64 88 68 20 " ++
   "0 1 0 1256778 18685952 2655 4294967295 4620288 7319624 3219630688 0 0 0 0 2 536891909 " ++
   "1 0 0 17 0 0 0 0 0 0 8366744 8490776 38150144 3219638342 3219638506 3219638506 " ++
   "3219644398 0").toList

/-- Three discovered files: pid 7, one whose read fails, pid 14066. -/
def sampleFiles : List (Option Str) := [some cronRecord, none, some nvimRecord]

/-- A schedule of two workers in which worker 1 delivers pid 14066 before worker 0 delivers
pid 7. -/
def sampleSched : List Action :=
  [.dispatch, .work 0, .dispatch, .dispatch, .work 1, .send 1, .collect, .send 0, .collect]

/-- The list FilteredProcs returns for the sample files under the sample schedule and the
all filter. -/
def sampleScanResult : List Proc :=
  match FilteredProcs sampleSys (GetFilterer sampleSys "all".toList) sampleFiles 2 sampleSched with
  | some (.ok result) => result
  | _ => []

/-- The sample record with the pid and the command written without a space in between: 51
white-space-delimited tokens. -/
def gluedRecord : Str :=
  ("14066(nvim) S 14064 14063 14063 0 -1 4194304 5898 6028 495 394 487 64 88 68 39 19 1 0 " ++
   "1256778 18685952 2655 4294967295 4620288 7319624 3219630688 0 0 0 0 2 536891909 1 0 0 17 " ++
   "0 0 0 0 0 0 8366744 8490776 38150144 3219638342 3219638506 3219638506 3219644398 0").toList

/-- The sample record without its last token: 51 tokens. -/
def truncatedRecord : Str :=
  ("14066 (nvim) S 14064 14063 14063 0 -1 4194304 5898 6028 495 394 487 64 88 68 39 19 1 0 " ++
   "1256778 18685952 2655 4294967295 4620288 7319624 3219630688 0 0 0 0 2 536891909 1 0 0 17 " ++
   "0 0 0 0 0 0 8366744 8490776 38150144 3219638342 3219638506 3219638506 3219644398").toList

/-- A record of 52 tokens: pid and command share the first token, and the last token is a
number beyond 64 bits. -/
def shiftedRecord : Str :=
  ("14066(nvim) S 14064 14063 14063 0 -1 4194304 5898 6028 495 394 487 64 88 68 39 19 1 0 " ++
   "1256778 18685952 2655 4294967295 4620288 7319624 3219630688 0 0 0 0 2 536891909 1 0 0 17 " ++
   "0 0 0 0 0 0 8366744 8490776 38150144 3219638342 3219638506 3219638506 3219644398 0 " ++
   "99999999999999999999").toList

/-- The sample record with Flags (field 9) replaced by -1. -/
def negativeFlagsRecord : Str :=
  ("14066 (nvim) S 14064 14063 14063 0 -1 -1 5898 6028 495 394 487 64 88 68 39 19 1 0 " ++
   "1256778 18685952 2655 4294967295 4620288 7319624 3219630688 0 0 0 0 2 536891909 1 0 0 17 " ++
   "0 0 0 0 0 0 8366744 8490776 38150144 3219638342 3219638506 3219638506 3219644398 0").toList

/-- The sample record with StartTime (field 22, a uint64) replaced by 2^64. -/
def hugeStartTimeRecord : Str :=
  ("14066 (nvim) S 14064 14063 14063 0 -1 4194304 5898 6028 495 394 487 64 88 68 39 19 1 0 " ++
   "18446744073709551616 18685952 2655 4294967295 4620288 7319624 3219630688 0 0 0 0 2 " ++
   "536891909 1 0 0 17 " ++
   "0 0 0 0 0 0 8366744 8490776 38150144 3219638342 3219638506 3219638506 3219644398 0").toList

/-- The sample record with Ppid (field 4, an int) replaced by 2^31, beyond a 32-bit int. -/
def hugePpidRecord : Str :=
  ("14066 (nvim) S 2147483648 14063 14063 0 -1 4194304 5898 6028 495 394 487 64 88 68 39 19 " ++
   "1 0 1256778 18685952 2655 4294967295 4620288 7319624 3219630688 0 0 0 0 2 " ++
   "536891909 1 0 0 17 " ++
   "0 0 0 0 0 0 8366744 8490776 38150144 3219638342 3219638506 3219638506 3219644398 0").toList

/-- The sample system, except that the cgroup file of no process can be read. -/
def goneCgroupSys : Sys :=
  { sampleSys with
    readFile := fun _ rc => if rc = "oom_score_adj".toList then some "200\n".toList else none }

/-- The sample system, except that the stat query on /proc/pid fails for every process and
every process is in the user slice. -/
def noOwnerSys : Sys :=
  { sampleSys with
    statUid := fun _ => none
    readFile := fun _ rc =>
      if rc = "cgroup".toList then some "0::/user.slice/user-1000.slice/session-2.scope\n".toList
      else none }

/-- The sample system at a process that has exited: the stat query on /proc/pid fails and no
file under /proc/pid can be read. -/
def exitedSys : Sys :=
  { sampleSys with
    statUid := fun _ => none
    readFile := fun _ _ => none
    ioprioGet := fun _ => none }

/-- The system of noOwnerSys with a user database that has an entry for the id -1. -/
def namedOwnerSys : Sys :=
  { noOwnerSys with
    lookupId := fun uid => if uid = -1 then some { Username := "nobody".toList } else none }

/-- A Filterer that accepts every descriptor, whatever the error that comes with it. -/
def acceptAnyFilter : ProcFilter :=
  { scope := "any".toList
    filter := fun _ _ => true
    message := "every record".toList }

/-- A record rendered from pid 1234 and the command name "(sd-pam)", the name systemd gives
to one of its processes: the command field is "((sd-pam))". -/
def sdpamRecord : Str :=
  ("1234 ((sd-pam)) S 1 1234 1234 0 -1 4194304 5898 6028 495 394 487 64 88 68 39 " ++
   "19 1 0 1256778 18685952 2655 4294967295 4620288 7319624 3219630688 0 0 0 0 2 536891909 " ++
   "1 0 0 17 0 0 0 0 0 0 8366744 8490776 38150144 3219638342 3219638506 3219638506 " ++
   "3219644398 0").toList

/-! ## Vocabulary of the scan-pipeline theorems -/

/-- What a worker sends for one record: the descriptor of NewProcFromStat when the filter
accepts it; nothing when the filter rejects it (or when NewProcFromStat panics). -/
def acceptedOne (sys : Sys) (filter : ProcFilter) (stat : Str) : Option Proc :=
  match NewProcFromStat sys stat with
  | .ok (p, err) => if filter.Filter p err then some p else none
  | .panic => none

/-- The accepted descriptors of a list of records, in the order of the records. -/
def accepted (sys : Sys) (filter : ProcFilter) (records : List Str) : List Proc :=
  records.filterMap (acceptedOne sys filter)

/-- The records of the files that are read successfully, in the order of the files. -/
def readRecords (files : List (Option Str)) : List Str := files.filterMap id

/-- The descriptors that workers have accepted and not yet sent. -/
def Scan.pending (st : Scan) : List Proc := st.workers.filterMap id

/-- The schedule in which worker 0 alone handles one file after the other. -/
def serialSched : List (Option Str) → List Action
  | [] => []
  | _ :: files => [.dispatch, .work 0, .send 0, .collect] ++ serialSched files

/-- What holds in every state that a run of FilteredProcs on `files` reaches. -/
structure Scan.Inv (sys : Sys) (filter : ProcFilter) (files : List (Option Str)) (st : Scan) :
    Prop where
  size_eq : st.size = files.length
  stats_room : st.statsSent + st.files.length ≤ st.size
  stats_le : st.stats.length ≤ st.statsSent
  procs_room : st.procsSent + st.pending.length + st.stats.length + st.files.length ≤ st.size
  procs_le : st.procs.length ≤ st.procsSent
  one_result : st.procsSent + st.pending.length + st.stats.length ≤ st.statsSent
  records_sub : ∀ r ∈ st.stats ++ readRecords st.files, r ∈ readRecords files
  conserved : st.panicked = false →
    ((st.result ++ st.procs ++ st.pending ++
        accepted sys filter (st.stats ++ readRecords st.files) : List Proc) : Multiset Proc)
      = (accepted sys filter (readRecords files) : List Proc)
  handled : st.panicked = false → ∀ r ∈ readRecords files,
    r ∈ st.stats ++ readRecords st.files ∨ NewProcFromStat sys r ≠ .panic
  panic_cause : st.panicked = true → ∃ r ∈ readRecords files, NewProcFromStat sys r = .panic

/-! ## Sample values of the scan-pipeline theorems -/

/-- A record of pid 7 with the command name anacron. -/
def anacronRecord : Str :=
  ("7 (anacron) S 1 7 7 0 -1 4194304 5898 6028 495 394 487 64 88 68 20 " ++
   "0 1 0 1256778 18685952 2655 4294967295 4620288 7319624 3219630688 0 0 0 0 2 536891909 " ++
   "1 0 0 17 0 0 0 0 0 0 8366744 8490776 38150144 3219638342 3219638506 3219638506 " ++
   "3219644398 0").toList

/-- Two files whose records carry the same pid 7 and differ in the command name. -/
def twinFiles : List (Option Str) := [some cronRecord, some anacronRecord]

/-- Two workers; worker 0 (cron) sends before worker 1 (anacron). -/
def twinSchedA : List Action :=
  [.dispatch, .dispatch, .work 0, .work 1, .send 0, .send 1, .collect, .collect]

/-- Two workers; worker 1 (anacron) sends before worker 0 (cron). -/
def twinSchedB : List Action :=
  [.dispatch, .dispatch, .work 0, .work 1, .send 1, .send 0, .collect, .collect]

/-- The command names of the descriptors a run returns. -/
def returnedComms : Option (Outcome (List Proc)) → Option (List Str)
  | some (.ok result) => some (result.map (fun p => p.Comm))
  | _ => none

/-! ## Filter predicate -/

theorem toLower_global (sys : Sys) : ToLower sys.lowerTable "global".toList = "global".toList :=
  rfl

theorem toLower_system (sys : Sys) : ToLower sys.lowerTable "system".toList = "system".toList :=
  rfl

theorem toLower_all (sys : Sys) : ToLower sys.lowerTable "all".toList = "all".toList := rfl

theorem toLower_user (sys : Sys) : ToLower sys.lowerTable "user".toList = "user".toList := rfl

theorem toLower_nil_ne (sys : Sys) :
    ToLower sys.lowerTable [] ≠ "global".toList ∧ ToLower sys.lowerTable [] ≠ "system".toList ∧
    ToLower sys.lowerTable [] ≠ "all".toList := by
  simp [ToLower]

theorem getFilterer_global (sys : Sys) (s : Str)
    (h : ToLower sys.lowerTable s = "global".toList) :
    GetFilterer sys s =
      { scope := "global".toList
        filter := fun p err => err == none && p.InUserSlice
        message := "processes inside any user slice".toList } := by
  simp only [GetFilterer, h, if_true]

theorem getFilterer_system (sys : Sys) (s : Str)
    (h : ToLower sys.lowerTable s = "system".toList) :
    GetFilterer sys s =
      { scope := "system".toList
        filter := fun p err => err == none && p.InSystemSlice
        message := "processes inside system slice".toList } := by
  have h1 : ¬ ("system".toList = "global".toList) := by decide
  simp only [GetFilterer, h, h1, if_true, if_false]

theorem getFilterer_all (sys : Sys) (s : Str)
    (h : ToLower sys.lowerTable s = "all".toList) :
    GetFilterer sys s =
      { scope := "all".toList
        filter := fun _ err => err == none
        message := "all processes".toList } := by
  have h1 : ¬ ("all".toList = "global".toList) := by decide
  have h2 : ¬ ("all".toList = "system".toList) := by decide
  simp only [GetFilterer, h, h1, h2, if_true, if_false]

theorem getFilterer_default (sys : Sys) (s : Str)
    (h1 : ToLower sys.lowerTable s ≠ "global".toList)
    (h2 : ToLower sys.lowerTable s ≠ "system".toList)
    (h3 : ToLower sys.lowerTable s ≠ "all".toList) :
    GetFilterer sys s =
      { scope := "user".toList
        filter := fun p err => err == none && p.Uid == sys.getuid && p.InUserSlice
        message := "calling user processes".toList } := by
  simp only [GetFilterer, h1, h2, h3, if_false]

/-- C5: under every scope string, a descriptor that comes with a non-nil parse error is
rejected by the filter GetFilterer returns. -/
theorem getFilterer_rejects_parse_error (sys : Sys) (s : Str) (p : Proc) (e : GoError) :
    (GetFilterer sys s).Filter p (some e) = false := by
  unfold GetFilterer
  simp only [ProcFilter.Filter]
  split_ifs <;> rfl

/-- C6: with a nil parse error, the global filter holds exactly when Cgroup[1] is
"user.slice", the system filter exactly when it is not, so the two always differ; a
descriptor whose Cgroup[1] is empty (empty or root cgroup) is accepted by system. -/
theorem global_system_partition (sys : Sys) (p : Proc) :
    ((GetFilterer sys "global".toList).Filter p none = true ↔
        p.Cgroup.at1 = "user.slice".toList) ∧
    ((GetFilterer sys "system".toList).Filter p none = true ↔
        ¬ p.Cgroup.at1 = "user.slice".toList) ∧
    (GetFilterer sys "global".toList).Filter p none ≠
      (GetFilterer sys "system".toList).Filter p none ∧
    (∀ full leaf : Str,
      (GetFilterer sys "system".toList).Filter { p with Cgroup := ⟨full, [], leaf⟩ } none = true ∧
      (GetFilterer sys "global".toList).Filter { p with Cgroup := ⟨full, [], leaf⟩ } none
        = false) := by
  rw [getFilterer_global sys _ (toLower_global sys), getFilterer_system sys _ (toLower_system sys)]
  simp only [ProcFilter.Filter, Proc.InSystemSlice, Proc.InUserSlice]
  refine ⟨by simp, by simp, ?_, ?_⟩
  · cases p.Cgroup.at1 == "user.slice".toList <;> simp
  · intro full leaf
    constructor <;> decide

/-- C7: whenever the user filter accepts a pair, the global filter accepts it too; the user
filter accepts exactly when the error is nil, Uid is the caller's uid and the descriptor is
in the user slice. -/
theorem user_implies_global (sys : Sys) (p : Proc) (err : Option GoError) :
    ((GetFilterer sys "user".toList).Filter p err = true →
        (GetFilterer sys "global".toList).Filter p err = true) ∧
    ((GetFilterer sys "user".toList).Filter p err = true ↔
        err = none ∧ p.Uid = sys.getuid ∧ p.InUserSlice = true) := by
  rw [getFilterer_global sys _ (toLower_global sys),
    getFilterer_default sys _ (by rw [toLower_user]; decide) (by rw [toLower_user]; decide)
      (by rw [toLower_user]; decide)]
  simp only [ProcFilter.Filter]
  constructor
  · intro h
    simp only [Bool.and_eq_true] at h
    simp only [Bool.and_eq_true]
    exact ⟨h.1.1, h.2⟩
  · simp [and_assoc]

theorem user_implies_global_witness :
    (GetFilterer sampleSys "user".toList).Filter sampleProc none = true ∧
    (GetFilterer sampleSys "global".toList).Filter sampleProc none = true :=
  ⟨by decide, (user_implies_global sampleSys sampleProc none).1 (by decide)⟩

/-- C8: the all filter accepts a pair exactly when the error is nil, whatever the
descriptor. -/
theorem all_iff_no_error (sys : Sys) (p : Proc) (err : Option GoError) :
    ((GetFilterer sys "all".toList).Filter p err = true ↔ err = none) ∧
    (∀ q : Proc, (GetFilterer sys "all".toList).Filter q err =
        (GetFilterer sys "all".toList).Filter p err) := by
  rw [getFilterer_all sys _ (toLower_all sys)]
  simp [ProcFilter.Filter]

/-- C9: GetFilterer is a total function of the lower-cased scope: two scopes with the same
lower-casing give the same filter; lower-casings "global", "system" and "all" select the
global, system and all variants; every other scope, the empty one included, selects the user
variant; "ALL", "All" and "all" give the same filter. -/
theorem getFilterer_by_lowercase (sys : Sys) (s : Str) :
    (∀ t : Str, ToLower sys.lowerTable s = ToLower sys.lowerTable t →
        GetFilterer sys s = GetFilterer sys t) ∧
    (ToLower sys.lowerTable s = "global".toList →
        (GetFilterer sys s).scope = "global".toList ∧
        (GetFilterer sys s).String = "processes inside any user slice".toList ∧
        ∀ p err, (GetFilterer sys s).Filter p err = (err == none && p.InUserSlice)) ∧
    (ToLower sys.lowerTable s = "system".toList →
        (GetFilterer sys s).scope = "system".toList ∧
        (GetFilterer sys s).String = "processes inside system slice".toList ∧
        ∀ p err, (GetFilterer sys s).Filter p err = (err == none && p.InSystemSlice)) ∧
    (ToLower sys.lowerTable s = "all".toList →
        (GetFilterer sys s).scope = "all".toList ∧
        (GetFilterer sys s).String = "all processes".toList ∧
        ∀ p err, (GetFilterer sys s).Filter p err = (err == none)) ∧
    (ToLower sys.lowerTable s ≠ "global".toList → ToLower sys.lowerTable s ≠ "system".toList →
      ToLower sys.lowerTable s ≠ "all".toList →
        (GetFilterer sys s).scope = "user".toList ∧
        (GetFilterer sys s).String = "calling user processes".toList ∧
        ∀ p err, (GetFilterer sys s).Filter p err =
          (err == none && p.Uid == sys.getuid && p.InUserSlice)) ∧
    GetFilterer sys "ALL".toList = GetFilterer sys "all".toList ∧
    GetFilterer sys "All".toList = GetFilterer sys "all".toList ∧
    (GetFilterer sys []).scope = "user".toList ∧
    (GetFilterer sys []).String = "calling user processes".toList := by
  refine ⟨?_, ?_, ?_, ?_, ?_, ?_, ?_, ?_, ?_⟩
  · intro t h
    simp only [GetFilterer, h]
  · intro h
    rw [getFilterer_global sys s h]
    exact ⟨rfl, rfl, fun _ _ => rfl⟩
  · intro h
    rw [getFilterer_system sys s h]
    exact ⟨rfl, rfl, fun _ _ => rfl⟩
  · intro h
    rw [getFilterer_all sys s h]
    exact ⟨rfl, rfl, fun _ _ => rfl⟩
  · intro h1 h2 h3
    rw [getFilterer_default sys s h1 h2 h3]
    exact ⟨rfl, rfl, fun _ _ => rfl⟩
  · rw [getFilterer_all sys "ALL".toList rfl, getFilterer_all sys "all".toList rfl]
  · rw [getFilterer_all sys "All".toList rfl, getFilterer_all sys "all".toList rfl]
  · rw [getFilterer_default sys [] (toLower_nil_ne sys).1 (toLower_nil_ne sys).2.1
      (toLower_nil_ne sys).2.2]
  · rw [getFilterer_default sys [] (toLower_nil_ne sys).1 (toLower_nil_ne sys).2.1
      (toLower_nil_ne sys).2.2]
    rfl

theorem getFilterer_by_lowercase_witness :
    ToLower sampleSys.lowerTable "GLOBAL".toList = ToLower sampleSys.lowerTable "gLoBaL".toList ∧
    GetFilterer sampleSys "GLOBAL".toList = GetFilterer sampleSys "gLoBaL".toList ∧
    (GetFilterer sampleSys "GLOBAL".toList).scope = "global".toList ∧
    (GetFilterer sampleSys "SyStem".toList).scope = "system".toList ∧
    (GetFilterer sampleSys "aLL".toList).scope = "all".toList ∧
    (GetFilterer sampleSys "everything".toList).scope = "user".toList :=
  ⟨by decide,
   (getFilterer_by_lowercase sampleSys "GLOBAL".toList).1 "gLoBaL".toList (by decide),
   ((getFilterer_by_lowercase sampleSys "GLOBAL".toList).2.1 (by decide)).1,
   ((getFilterer_by_lowercase sampleSys "SyStem".toList).2.2.1 (by decide)).1,
   ((getFilterer_by_lowercase sampleSys "aLL".toList).2.2.2.1 (by decide)).1,
   ((getFilterer_by_lowercase sampleSys "everything".toList).2.2.2.2.1
      (by decide) (by decide) (by decide)).1⟩

/-! ## Record parser: the sample records -/

/-- C1 (evaluation at the failing input): on the record whose command field is
"(my proc (v2))" Load takes "(my" as the command token and "proc" as the state, fails with
"expected integer" on "(v2))", and leaves Comm = "my". -/
theorem load_spaced_comm :
    (ProcStat.Load 64 {} spacedRecord).2 = some GoError.expectedInteger ∧
    (ProcStat.Load 64 {} spacedRecord).1.Comm = "my".toList ∧
    (ProcStat.Load 64 {} spacedRecord).1.State = "proc".toList ∧
    (ProcStat.Load 64 {} spacedRecord).1.Comm ≠ "my proc (v2)".toList ∧
    (ProcStat.Load 32 {} spacedRecord).2 = some GoError.expectedInteger ∧
    (ProcStat.Load 32 {} spacedRecord).1.Comm = "my".toList :=
  ⟨rfl, rfl, rfl, by decide, rfl, rfl⟩

/-- C2 (as stated, refuted): loading the sample nvim record does not give Priority = 19 and
Nice = 1. -/
theorem load_nvim_record_not_as_stated :
    ¬ ((ProcStat.Load 64 {} nvimRecord).2 = none ∧
       (ProcStat.Load 64 {} nvimRecord).1.Pid = 14066 ∧
       (ProcStat.Load 64 {} nvimRecord).1.Comm = "nvim".toList ∧
       (ProcStat.Load 64 {} nvimRecord).1.State = "S".toList ∧
       (ProcStat.Load 64 {} nvimRecord).1.Ppid = 14064 ∧
       (ProcStat.Load 64 {} nvimRecord).1.Pgrp = 14063 ∧
       (ProcStat.Load 64 {} nvimRecord).1.Session = 14063 ∧
       (ProcStat.Load 64 {} nvimRecord).1.Priority = 19 ∧
       (ProcStat.Load 64 {} nvimRecord).1.Nice = 1 ∧
       (ProcStat.Load 64 {} nvimRecord).1.NumThreads = 1) := by
  intro h
  have hp : (ProcStat.Load 64 {} nvimRecord).1.Priority = 39 := rfl
  have h19 := h.2.2.2.2.2.2.2.1
  rw [hp] at h19
  exact absurd h19 (by decide)

/-- C2 (amended): on either word size and for every receiver, loading the sample nvim record
returns a nil error and gives Pid = 14066, Comm = "nvim", State = "S", Ppid = 14064,
Pgrp = 14063, Session = 14063, Priority = 39, Nice = 19, NumThreads = 1. -/
theorem load_nvim_record (intBits : Nat) (h : intBits = 32 ∨ intBits = 64) (stat : ProcStat) :
    (ProcStat.Load intBits stat nvimRecord).2 = none ∧
    (ProcStat.Load intBits stat nvimRecord).1.Pid = 14066 ∧
    (ProcStat.Load intBits stat nvimRecord).1.Comm = "nvim".toList ∧
    (ProcStat.Load intBits stat nvimRecord).1.State = "S".toList ∧
    (ProcStat.Load intBits stat nvimRecord).1.Ppid = 14064 ∧
    (ProcStat.Load intBits stat nvimRecord).1.Pgrp = 14063 ∧
    (ProcStat.Load intBits stat nvimRecord).1.Session = 14063 ∧
    (ProcStat.Load intBits stat nvimRecord).1.Priority = 39 ∧
    (ProcStat.Load intBits stat nvimRecord).1.Nice = 19 ∧
    (ProcStat.Load intBits stat nvimRecord).1.NumThreads = 1 := by
  rcases h with rfl | rfl <;> exact ⟨rfl, rfl, rfl, rfl, rfl, rfl, rfl, rfl, rfl, rfl⟩

theorem load_nvim_record_witness :
    (32 = 32 ∨ 32 = 64) ∧
    (ProcStat.Load 32 {} nvimRecord).2 = none ∧
    (ProcStat.Load 32 {} nvimRecord).1.Priority = 39 ∧
    (ProcStat.Load 32 {} nvimRecord).1.Nice = 19 :=
  ⟨Or.inl rfl, (load_nvim_record 32 (Or.inl rfl) {}).1,
   (load_nvim_record 32 (Or.inl rfl) {}).2.2.2.2.2.2.2.1,
   (load_nvim_record 32 (Or.inl rfl) {}).2.2.2.2.2.2.2.2.1⟩

/-! ## Scan pipeline: order of the result -/

theorem mem_sortInsert {α : Type} (less : α → α → Bool) (x y : α) (l : List α) :
    y ∈ sortInsert less x l ↔ y = x ∨ y ∈ l := by
  induction l with
  | nil => simp [sortInsert]
  | cons z zs ih =>
    unfold sortInsert
    split_ifs
    · simp
    · simp only [List.mem_cons, ih]
      tauto

theorem sortInsert_pairwise (x : Proc) (l : List Proc)
    (hl : l.Pairwise (fun a b => a.Pid ≤ b.Pid)) :
    (sortInsert ProcByPid.Less x l).Pairwise (fun a b => a.Pid ≤ b.Pid) := by
  induction l with
  | nil => simp [sortInsert]
  | cons z zs ih =>
    rw [List.pairwise_cons] at hl
    unfold sortInsert
    by_cases hlt : ProcByPid.Less x z = true
    · rw [if_pos hlt]
      have hxz : x.Pid < z.Pid := by simpa [ProcByPid.Less] using hlt
      refine List.pairwise_cons.mpr ⟨?_, List.pairwise_cons.mpr hl⟩
      intro b hb
      rcases List.mem_cons.mp hb with rfl | hb
      · exact le_of_lt hxz
      · exact le_trans (le_of_lt hxz) (hl.1 b hb)
    · rw [if_neg hlt]
      have hzx : z.Pid ≤ x.Pid := by simpa [ProcByPid.Less] using hlt
      refine List.pairwise_cons.mpr ⟨?_, ih hl.2⟩
      intro b hb
      rcases (mem_sortInsert _ _ _ _).mp hb with rfl | hb
      · exact hzx
      · exact hl.1 b hb

theorem foldl_sortInsert_pairwise (data sorted : List Proc)
    (hs : sorted.Pairwise (fun a b => a.Pid ≤ b.Pid)) :
    (data.foldl (fun sorted x => sortInsert ProcByPid.Less x sorted) sorted).Pairwise
      (fun a b => a.Pid ≤ b.Pid) := by
  induction data generalizing sorted with
  | nil => simpa using hs
  | cons x xs ih => exact ih _ (sortInsert_pairwise x sorted hs)

theorem sortSort_pairwise (data : List Proc) :
    (sortSort ProcByPid.Less data).Pairwise (fun a b => a.Pid ≤ b.Pid) :=
  foldl_sortInsert_pairwise data [] List.Pairwise.nil

/-- C10: whatever the files, the filter, the number of workers and the schedule of the
goroutines (hence the order in which descriptors arrive), the list FilteredProcs returns is
in non-decreasing order of Pid: result[i].Pid ≤ result[j].Pid for all indices i < j. -/
theorem filteredProcs_sorted (sys : Sys) (filter : ProcFilter) (files : List (Option Str))
    (count : Nat) (sched : List Action) (result : List Proc)
    (h : FilteredProcs sys filter files count sched = some (.ok result)) :
    ∀ (i j : Nat) (hij : i < j) (hj : j < result.length),
      (result.get ⟨i, lt_trans hij hj⟩).Pid ≤ (result.get ⟨j, hj⟩).Pid := by
  have hsorted : result.Pairwise (fun a b => a.Pid ≤ b.Pid) := by
    unfold FilteredProcs at h
    simp only at h
    split_ifs at h
    · simp at h
    · simp only [Option.some.injEq, Outcome.ok.injEq] at h
      rw [← h]
      exact sortSort_pairwise _
  intro i j hij hj
  exact List.pairwise_iff_get.mp hsorted ⟨i, lt_trans hij hj⟩ ⟨j, hj⟩ hij

theorem sampleScanResult_length : sampleScanResult.length = 2 := by decide!

theorem filteredProcs_sorted_witness :
    FilteredProcs sampleSys (GetFilterer sampleSys "all".toList) sampleFiles 2 sampleSched
      = some (.ok sampleScanResult) ∧
    (Scan.run sampleSys (GetFilterer sampleSys "all".toList) (Scan.init sampleFiles 2)
      sampleSched).result.map (fun p => p.Pid) = [14066, 7] ∧
    sampleScanResult.map (fun p => p.Pid) = [7, 14066] ∧
    (0 : Nat) < 1 ∧
    ∃ h : 1 < sampleScanResult.length,
      (sampleScanResult.get ⟨0, lt_trans Nat.zero_lt_one h⟩).Pid ≤
        (sampleScanResult.get ⟨1, h⟩).Pid :=
  ⟨by decide!, by decide!, by decide!, Nat.zero_lt_one,
   by rw [sampleScanResult_length]; exact Nat.one_lt_two,
   filteredProcs_sorted sampleSys (GetFilterer sampleSys "all".toList) sampleFiles 2 sampleSched
     sampleScanResult (by decide!) 0 1 Nat.zero_lt_one
     (by rw [sampleScanResult_length]; exact Nat.one_lt_two)⟩

/-! ## Tokens -/

theorem fieldsAux_append (cur t r : Str) (ht : ∀ c ∈ t, isSpace c = false) :
    FieldsAux cur (t ++ r) = FieldsAux (cur ++ t) r := by
  induction t generalizing cur with
  | nil => simp
  | cons c cs ih =>
    have hc : isSpace c = false := ht c (List.mem_cons_self _ _)
    rw [List.cons_append, FieldsAux, if_neg (by simp [hc]),
      ih _ (fun d hd => ht d (List.mem_cons_of_mem _ hd))]
    simp

theorem fieldsAux_skip (s : Str) : FieldsAux [] s = FieldsAux [] (SkipSpace s) := by
  induction s with
  | nil => rfl
  | cons c cs ih =>
    by_cases hc : isSpace c = true
    · simp only [FieldsAux, hc, if_true, SkipSpace, List.dropWhile_cons_of_pos]
      exact ih
    · simp only [SkipSpace, List.dropWhile_cons_of_neg hc]

theorem fieldsAux_sep (cur r : Str) (hcur : cur ≠ [])
    (hr : ∀ c ∈ r.head?, isSpace c = true) : FieldsAux cur r = cur :: FieldsAux [] r := by
  cases r with
  | nil => simp [FieldsAux, hcur]
  | cons c cs =>
    have hc : isSpace c = true := hr c (by simp)
    simp [FieldsAux, hc, hcur]

theorem skipSpace_eq (s : Str) : SkipSpace s = firstToken s ++ afterToken s := by
  simp [firstToken, afterToken]

theorem firstToken_notSpace (s : Str) : ∀ c ∈ firstToken s, isSpace c = false := by
  intro c hc
  have := List.mem_takeWhile_imp hc
  simpa [notSpace] using this

theorem afterToken_head (s : Str) : ∀ c ∈ (afterToken s).head?, isSpace c = true := by
  intro c hc
  unfold afterToken at hc
  have h := List.head?_dropWhile_not notSpace (SkipSpace s)
  rw [Option.mem_def] at hc
  rw [hc] at h
  simpa [notSpace] using h

theorem firstToken_ne_nil (s : Str) (h : SkipSpace s ≠ []) : firstToken s ≠ [] := by
  unfold firstToken
  cases hs : SkipSpace s with
  | nil => exact absurd hs h
  | cons c cs =>
    have h2 := List.head?_dropWhile_not isSpace s
    unfold SkipSpace at hs
    rw [hs] at h2
    simp only [List.head?_cons] at h2
    have : notSpace c = true := by simpa [notSpace] using h2
    simp [List.takeWhile_cons, this]

theorem fields_nil (s : Str) (h : SkipSpace s = []) : Fields s = [] := by
  unfold Fields
  rw [fieldsAux_skip, h]
  rfl

theorem fields_cons (s : Str) (h : SkipSpace s ≠ []) :
    Fields s = firstToken s :: Fields (afterToken s) := by
  unfold Fields
  rw [fieldsAux_skip, skipSpace_eq, fieldsAux_append _ _ _ (firstToken_notSpace s), List.nil_append,
    fieldsAux_sep _ _ (firstToken_ne_nil s h) (afterToken_head s)]

/-! ## Scanning one plain token -/

theorem span_sep (p : Char → Bool) (r : Str) (hr : ∀ c ∈ r.head?, p c = false) :
    r.takeWhile p = [] ∧ r.dropWhile p = r := by
  cases r with
  | nil => simp
  | cons c cs =>
    have hc : p c = false := hr c (by simp)
    simp [List.takeWhile_cons, List.dropWhile_cons, hc]

theorem span_digits (p : Char → Bool) (ds r : Str) (hds : ∀ c ∈ ds, p c = true)
    (hr : ∀ c ∈ r.head?, p c = false) :
    (ds ++ r).takeWhile p = ds ∧ (ds ++ r).dropWhile p = r := by
  rw [List.takeWhile_append_of_pos hds, List.dropWhile_append_of_pos hds, (span_sep p r hr).1,
    (span_sep p r hr).2]
  simp

theorem elem_false_of_space (set : Str) (hset : ∀ d ∈ set, isSpace d = false) (c : Char)
    (hc : isSpace c = true) : set.elem c = false := by
  cases h : set.elem c with
  | false => rfl
  | true =>
    have hm : c ∈ set := by simpa using h
    rw [hset c hm] at hc
    exact absurd hc (by simp)

theorem isDigit_cases (c : Char) (h : isDigit c = true) :
    c = '0' ∨ c = '1' ∨ c = '2' ∨ c = '3' ∨ c = '4' ∨ c = '5' ∨ c = '6' ∨ c = '7' ∨ c = '8' ∨
    c = '9' := by
  simpa [isDigit, decimalDigits] using h

theorem isDigit_facts (c : Char) (h : isDigit c = true) :
    '0'.toNat ≤ c.toNat ∧ c.toNat ≤ '9'.toNat ∧ c ≠ '_' ∧ sign.elem c = false ∧
    (decimalDigits ++ ['_']).elem c = true ∧ isSpace c = false := by
  rcases isDigit_cases c h with h | h | h | h | h | h | h | h | h | h <;> subst h <;> decide

theorem isPlainDigits_cases (ds : Str) (h : isPlainDigits ds = true) :
    ds = ['0'] ∨ ∃ d rest, ds = d :: rest ∧ d ≠ '0' ∧ ∀ c ∈ d :: rest, isDigit c = true := by
  cases ds with
  | nil => simp [isPlainDigits] at h
  | cons d rest =>
    simp only [isPlainDigits, List.isEmpty_cons, Bool.not_false, Bool.true_and, List.head?_cons,
      Bool.and_eq_true, Bool.or_eq_true, List.all_eq_true] at h
    by_cases hd : d = '0'
    · left
      subst hd
      rcases h.2 with h2 | h2
      · simp at h2
      · simp only [List.length_cons, beq_iff_eq, add_left_eq_self, List.length_eq_zero] at h2
        rw [h2]
    · right
      exact ⟨d, rest, rfl, hd, h.1⟩

theorem sep_facts (r : Str) (hr : ∀ c ∈ r.head?, isSpace c = true) (set : Str)
    (hset : ∀ d ∈ set, isSpace d = false) :
    peek set r = false ∧ ∀ c ∈ r.head?, set.elem c = false := by
  constructor
  · cases r with
    | nil => rfl
    | cons c cs => exact elem_false_of_space set hset c (hr c (by simp))
  · intro c hc
    exact elem_false_of_space set hset c (hr c hc)

theorem scanBasePrefix_nonzero (buf s : Str) (h : peek "0".toList s = false) :
    scanBasePrefix buf s = (decimalDigits ++ ['_'], false, buf, s) := by
  unfold scanBasePrefix
  rw [if_pos (by rw [h]; rfl)]

theorem scanBasePrefix_zero (buf r : Str) (hb : peek "bB".toList r = false)
    (ho : peek "oO".toList r = false) (hx : peek "xX".toList r = false) :
    scanBasePrefix buf ('0' :: r) = (octalDigits ++ ['_'], true, buf ++ ['0'], r) := by
  have hacc : accept "0".toList buf ('0' :: r) = (buf ++ ['0'], r) := rfl
  have hpk : peek "0".toList ('0' :: r) = true := rfl
  unfold scanBasePrefix
  rw [if_neg (by rw [hpk]; decide)]
  simp only [hacc]
  rw [if_neg (by rw [hb]; decide), if_neg (by rw [ho]; decide), if_neg (by rw [hx]; decide)]

/-- After the sign, the scanner reads a plain digit string as one token and stops at the
space (or the end) behind it. -/
theorem scanNumber_plain (sg ds r : Str) (hd : isPlainDigits ds = true)
    (hr : ∀ c ∈ r.head?, isSpace c = true) :
    scanNumber (scanBasePrefix sg (ds ++ r)).1 (scanBasePrefix sg (ds ++ r)).2.1
      (scanBasePrefix sg (ds ++ r)).2.2.1 (scanBasePrefix sg (ds ++ r)).2.2.2
      = .ok (sg ++ ds, r) := by
  rcases isPlainDigits_cases ds hd with h0 | ⟨d, rest, hds, hd0, hall⟩
  · subst h0
    have hb := (sep_facts r hr "bB".toList (by decide)).1
    have ho := (sep_facts r hr "oO".toList (by decide)).1
    have hx := (sep_facts r hr "xX".toList (by decide)).1
    have h8 := sep_facts r hr (octalDigits ++ ['_']) (by decide)
    rw [List.singleton_append, scanBasePrefix_zero sg r hb ho hx]
    simp only [scanNumber, if_true]
    rw [(span_sep _ r h8.2).1, (span_sep _ r h8.2).2, List.append_nil]
  · subst hds
    have hdd := isDigit_facts d (hall d (List.mem_cons_self _ _))
    have hpk : peek "0".toList ((d :: rest) ++ r) = false := by
      simp only [List.cons_append, peek]
      simpa using hd0
    rw [scanBasePrefix_nonzero sg _ hpk]
    have h10 := sep_facts r hr (decimalDigits ++ ['_']) (by decide)
    have hrest : ∀ c ∈ rest, (decimalDigits ++ ['_']).elem c = true := fun c hc =>
      (isDigit_facts c (hall c (List.mem_cons_of_mem _ hc))).2.2.2.2.1
    have hsp := span_digits (fun c => (decimalDigits ++ ['_']).elem c) rest r hrest h10.2
    simp only [scanNumber, Bool.false_eq_true, if_false, List.cons_append, hdd.2.2.2.2.1, if_true]
    rw [hsp.1, hsp.2]

theorem accept_sign_plain (t : Str) (h : isPlainNum t = true) (r : Str) :
    (unsign t = t ∧ t.head? ≠ some '+' ∧ t.head? ≠ some '-' ∧
      accept sign [] (t ++ r) = ([], t ++ r)) ∨
    (∃ c, (c = '+' ∨ c = '-') ∧ t = c :: unsign t ∧
      accept sign [] (t ++ r) = ([c], unsign t ++ r)) := by
  unfold isPlainNum at h
  by_cases hs : t.head? = some '+' ∨ t.head? = some '-'
  · right
    cases t with
    | nil => simp at hs
    | cons c cs =>
      simp only [List.head?_cons, Option.some.injEq] at hs
      have hu : unsign (c :: cs) = cs := by simp [unsign, hs]
      refine ⟨c, hs, by rw [hu], ?_⟩
      rw [hu]
      rcases hs with hs | hs <;> subst hs <;> rfl
  · left
    have hu : unsign t = t := by simp [unsign, hs]
    push_neg at hs
    refine ⟨hu, hs.1, hs.2, ?_⟩
    rw [hu] at h
    rcases isPlainDigits_cases t h with h0 | ⟨d, rest, hds, _, hall⟩
    · subst h0
      rfl
    · subst hds
      have := (isDigit_facts d (hall d (List.mem_cons_self _ _))).2.2.2.1
      simp only [List.cons_append, accept, this, Bool.false_eq_true, if_false]

/-- The scan of an int from an input whose first token is a plain numeral: the whole token
goes to ParseInt and the scan stops behind it. -/
theorem scanInt_plain (bits : Nat) (s : Str) (hs : SkipSpace s ≠ [])
    (hp : isPlainNum (firstToken s) = true) :
    scanInt bits s =
      match ParseInt (firstToken s) 0 64 with
      | .error e => .error e
      | .ok i =>
        if (i + 2 ^ (bits - 1)) % 2 ^ bits - 2 ^ (bits - 1) ≠ i then .error .integerOverflow
        else .ok (i, afterToken s) := by
  unfold scanInt
  simp only [hs, if_false]
  rw [skipSpace_eq]
  unfold isPlainNum at hp
  rcases accept_sign_plain (firstToken s) hp (afterToken s) with
    ⟨hu, _, _, hacc⟩ | ⟨c, _, ht, hacc⟩
  · rw [hacc]
    simp only
    rw [hu] at hp
    rw [scanNumber_plain [] (firstToken s) (afterToken s) hp (afterToken_head s)]
    simp only [List.nil_append]
  · rw [hacc]
    simp only
    rw [scanNumber_plain [c] (unsign (firstToken s)) (afterToken s) hp (afterToken_head s)]
    simp only [List.singleton_append, ← ht]

/-- The scan of a uint from an input whose first token is a plain numeral: a signed token is
no integer; an unsigned one goes whole to ParseUint and the scan stops behind it. -/
theorem scanUint_plain (bits : Nat) (s : Str) (hs : SkipSpace s ≠ [])
    (hp : isPlainNum (firstToken s) = true) :
    scanUint bits s =
      if (firstToken s).head? = some '+' ∨ (firstToken s).head? = some '-' then
        .error .expectedInteger
      else match ParseUint (firstToken s) 0 64 with
        | .error e => .error e
        | .ok i =>
          if i % 2 ^ bits ≠ i then .error .integerOverflow else .ok (i, afterToken s) := by
  unfold scanUint
  simp only [hs, if_false]
  rw [skipSpace_eq]
  rcases accept_sign_plain (firstToken s) hp (afterToken s) with
    ⟨hu, h1, h2, _⟩ | ⟨c, hc, ht, _⟩
  · rw [if_neg (by simp [h1, h2])]
    unfold isPlainNum at hp
    rw [hu] at hp
    rw [scanNumber_plain [] (firstToken s) (afterToken s) hp (afterToken_head s)]
    simp only [List.nil_append]
  · have hh : (firstToken s).head? = some c := by rw [ht]; rfl
    rw [if_pos (by rw [hh]; simpa using hc)]
    rw [ht, List.cons_append]
    have hpk : peek "0".toList (c :: (unsign (firstToken s) ++ afterToken s)) = false := by
      rcases hc with hc | hc <;> subst hc <;> rfl
    rw [scanBasePrefix_nonzero [] _ hpk]
    have hel : (decimalDigits ++ ['_']).elem c = false := by
      rcases hc with hc | hc <;> subst hc <;> rfl
    simp only [scanNumber, Bool.false_eq_true, if_false, hel]

theorem convertString_eq (s : Str) :
    convertString s = if SkipSpace s = [] then .error .EOF
      else .ok (firstToken s, afterToken s) := rfl

theorem scanInt_eof (bits : Nat) (s : Str) (hs : SkipSpace s = []) :
    scanInt bits s = .error .EOF := by
  simp [scanInt, hs]

theorem scanUint_eof (bits : Nat) (s : Str) (hs : SkipSpace s = []) :
    scanUint bits s = .error .EOF := by
  simp [scanUint, hs]

/-! ## strconv on plain numerals -/

theorem decFold_cons (n : Nat) (c : Char) (cs : Str) :
    decFold n (c :: cs) = decFold (n * 10 + (c.toNat - '0'.toNat)) cs := rfl

theorem le_decFold (ds : Str) (n : Nat) : n ≤ decFold n ds := by
  induction ds generalizing n with
  | nil => exact le_refl n
  | cons c cs ih =>
    rw [decFold_cons]
    exact le_trans (by omega) (ih _)

theorem digitVal_digit (c : Char) (h : isDigit c = true) :
    digitVal c = some (c.toNat - '0'.toNat) ∧ c.toNat - '0'.toNat < 10 := by
  rcases isDigit_cases c h with h | h | h | h | h | h | h | h | h | h <;> subst h <;> decide

theorem parseDigits_plain (ds : Str) (hall : ∀ c ∈ ds, isDigit c = true) (n : Nat) (us : Bool)
    (hn : n ≤ 2 ^ 64 - 1) :
    parseDigits 10 true (2 ^ 64 - 1) ds n us =
      if decFold n ds ≤ 2 ^ 64 - 1 then .ok (decFold n ds, us) else .error .ErrRange := by
  induction ds generalizing n with
  | nil =>
    simp only [parseDigits, decFold, List.foldl_nil]
    rw [if_pos hn]
  | cons c cs ih =>
    have hc := hall c (List.mem_cons_self _ _)
    have hne : c ≠ '_' := (isDigit_facts c hc).2.2.1
    have hdv := digitVal_digit c hc
    rw [decFold_cons]
    unfold parseDigits
    rw [if_neg (by simp [hne]), hdv.1]
    simp only
    rw [if_neg (by omega)]
    have hmono := le_decFold cs (n * 10 + (c.toNat - '0'.toNat))
    by_cases h1 : n ≥ (2 ^ 64 - 1) / 10 + 1
    · rw [if_pos h1, if_neg (by omega)]
    · rw [if_neg h1]
      by_cases h2 : n * 10 + (c.toNat - '0'.toNat) > 2 ^ 64 - 1
      · rw [if_pos h2, if_neg (by omega)]
      · rw [if_neg h2]
        exact ih (fun d hd => hall d (List.mem_cons_of_mem _ hd)) _ (by omega)

/-- ParseUint on a plain digit string: its decimal value when that fits 64 bits, a range
error otherwise. -/
theorem parseUint_plain (ds : Str) (hd : isPlainDigits ds = true) :
    ParseUint ds 0 64 =
      if decFold 0 ds ≤ 2 ^ 64 - 1 then .ok (decFold 0 ds) else .error .ErrRange := by
  rcases isPlainDigits_cases ds hd with h0 | ⟨d, rest, hds, hd0, hall⟩
  · subst h0
    rfl
  · subst hds
    have hbp : basePrefix (d :: rest) = (10, d :: rest) := by
      unfold basePrefix
      rw [if_neg (by simpa using hd0)]
    unfold ParseUint
    rw [if_neg (by simp)]
    simp only [if_true, hbp, beq_self_eq_true]
    rw [parseDigits_plain (d :: rest) hall 0 false (by omega)]
    by_cases hle : decFold 0 (d :: rest) ≤ 2 ^ 64 - 1
    · simp only [hle, if_true, Bool.false_and, Bool.false_eq_true, if_false]
    · simp only [hle, if_false]

theorem isPlainNum_ne_nil (t : Str) (h : isPlainNum t = true) : t ≠ [] := by
  intro ht
  subst ht
  simp [isPlainNum, unsign, isPlainDigits] at h

/-- ParseInt on a plain numeral: its value when that fits 64 bits, a range error
otherwise. -/
theorem parseInt_plain (t : Str) (h : isPlainNum t = true) :
    ParseInt t 0 64 =
      if -(2 ^ 63 : Int) ≤ numValue t ∧ numValue t < 2 ^ 63 then .ok (numValue t)
      else .error .ErrRange := by
  unfold ParseInt
  rw [if_neg (isPlainNum_ne_nil t h)]
  simp only
  have hu : (if t.head? = some '+' ∨ t.head? = some '-' then t.drop 1 else t) = unsign t := rfl
  rw [hu, parseUint_plain (unsign t) h]
  unfold numValue
  by_cases hneg : t.head? = some '-'
  · simp only [hneg, if_true, decide_True, Bool.not_true, Bool.false_and, Bool.true_and,
      Bool.false_eq_true, if_false]
    by_cases hle : decFold 0 (unsign t) ≤ 2 ^ 64 - 1
    · simp only [hle, if_true]
      by_cases h2 : decFold 0 (unsign t) > 2 ^ (64 - 1)
      · rw [if_pos (by simpa using h2), if_neg (by norm_num at h2 ⊢; omega)]
      · rw [if_neg (by simpa using h2), if_pos (by norm_num at h2 ⊢; omega)]
    · simp only [hle, if_false]
      rw [if_neg (by norm_num at hle ⊢; omega)]
  · simp only [hneg, if_false, decide_False, Bool.not_false, Bool.true_and, Bool.false_and,
      Bool.false_eq_true]
    by_cases hle : decFold 0 (unsign t) ≤ 2 ^ 64 - 1
    · simp only [hle, if_true]
      by_cases h2 : decFold 0 (unsign t) ≥ 2 ^ (64 - 1)
      · rw [if_pos (by simpa using h2), if_neg (by norm_num at h2 ⊢; omega)]
      · rw [if_neg (by simpa using h2), if_pos (by norm_num at h2 ⊢; omega)]
    · simp only [hle, if_false]
      rw [if_neg (by norm_num at hle ⊢; omega)]

/-! ## Scanning a record whose tokens are plain -/

theorem scanOne_eof {σ : Type} (bits : Nat) (a : Arg σ) (v : σ) (s : Str)
    (hs : SkipSpace s = []) : scanOne bits a v s = .error .EOF := by
  cases a <;>
    simp only [scanOne, scanInt_eof _ s hs, scanUint_eof _ s hs, convertString_eq, hs, if_true] <;>
    rfl

/-- A scan whose token is plain (when the argument is numeric) fails or consumes exactly the
first token. -/
theorem scanOne_aligned {σ : Type} (bits : Nat) (a : Arg σ) (v : σ) (s : Str)
    (hs : SkipSpace s ≠ []) (hp : a.isNumeric = true → isPlainNum (firstToken s) = true) :
    (∃ e, scanOne bits a v s = .error e) ∨ (∃ w, scanOne bits a v s = .ok (w, afterToken s)) := by
  cases a with
  | int set =>
    simp only [scanOne, scanInt_plain bits s hs (hp rfl)]
    cases ParseInt (firstToken s) 0 64 with
    | error e => exact Or.inl ⟨e, rfl⟩
    | ok i =>
      simp only
      split_ifs
      · exact Or.inl ⟨_, rfl⟩
      · exact Or.inr ⟨_, rfl⟩
  | uint set =>
    simp only [scanOne, scanUint_plain bits s hs (hp rfl)]
    split_ifs
    · exact Or.inl ⟨_, rfl⟩
    · cases ParseUint (firstToken s) 0 64 with
      | error e => exact Or.inl ⟨e, rfl⟩
      | ok i =>
        simp only
        split_ifs
        · exact Or.inl ⟨_, rfl⟩
        · exact Or.inr ⟨_, rfl⟩
  | uint64 set =>
    simp only [scanOne, scanUint_plain 64 s hs (hp rfl)]
    split_ifs
    · exact Or.inl ⟨_, rfl⟩
    · cases ParseUint (firstToken s) 0 64 with
      | error e => exact Or.inl ⟨e, rfl⟩
      | ok i =>
        simp only
        split_ifs
        · exact Or.inl ⟨_, rfl⟩
        · exact Or.inr ⟨_, rfl⟩
  | string set =>
    simp only [scanOne, convertString_eq, hs, if_false]
    exact Or.inr ⟨_, rfl⟩

theorem scanUint_outOfRange (bits : Nat) (s : Str) (hs : SkipSpace s ≠ [])
    (hp : isPlainNum (firstToken s) = true)
    (ho : (firstToken s).head? = some '-' ∨ 2 ^ bits ≤ decFold 0 (unsign (firstToken s))) :
    ∃ e, scanUint bits s = .error e := by
  rw [scanUint_plain bits s hs hp]
  by_cases hsg : (firstToken s).head? = some '+' ∨ (firstToken s).head? = some '-'
  · rw [if_pos hsg]
    exact ⟨_, rfl⟩
  · rw [if_neg hsg]
    have hu : unsign (firstToken s) = firstToken s := by simp [unsign, hsg]
    have hge : 2 ^ bits ≤ decFold 0 (firstToken s) := by
      rcases ho with ho | ho
      · exact absurd (Or.inr ho) hsg
      · rwa [hu] at ho
    unfold isPlainNum at hp
    rw [hu] at hp
    rw [parseUint_plain _ hp]
    split_ifs with h1
    · simp only
      rw [if_pos]
      · exact ⟨_, rfl⟩
      · intro hmod
        have := Nat.mod_lt (decFold 0 (firstToken s)) (Nat.two_pow_pos bits)
        omega
    · exact ⟨_, rfl⟩

theorem scanInt_outOfRange (bits : Nat) (hb : bits = 32 ∨ bits = 64) (s : Str)
    (hs : SkipSpace s ≠ []) (hp : isPlainNum (firstToken s) = true)
    (ho : numValue (firstToken s) < -(2 ^ (bits - 1) : Int) ∨
      (2 ^ (bits - 1) : Int) ≤ numValue (firstToken s)) :
    ∃ e, scanInt bits s = .error e := by
  rw [scanInt_plain bits s hs hp, parseInt_plain _ hp]
  split_ifs with h1
  · simp only
    rw [if_pos]
    · exact ⟨_, rfl⟩
    · rcases hb with hb | hb <;> subst hb <;> norm_num at ho ⊢ <;> omega
  · exact ⟨_, rfl⟩

/-- A scan whose token is a plain numeral out of the range of the argument's type fails. -/
theorem scanOne_outOfRange {σ : Type} (bits : Nat) (hb : bits = 32 ∨ bits = 64) (a : Arg σ)
    (v : σ) (s : Str) (hs : SkipSpace s ≠ []) (hp : isPlainNum (firstToken s) = true)
    (ho : a.outOfRange bits (firstToken s) = true) : ∃ e, scanOne bits a v s = .error e := by
  cases a with
  | int set =>
    obtain ⟨e, he⟩ := scanInt_outOfRange bits hb s hs hp (by simpa [Arg.outOfRange] using ho)
    exact ⟨e, by simp only [scanOne, he]; rfl⟩
  | uint set =>
    obtain ⟨e, he⟩ := scanUint_outOfRange bits s hs hp (by simpa [Arg.outOfRange] using ho)
    exact ⟨e, by simp only [scanOne, he]; rfl⟩
  | uint64 set =>
    obtain ⟨e, he⟩ := scanUint_outOfRange 64 s hs hp (by simpa [Arg.outOfRange] using ho)
    exact ⟨e, by simp only [scanOne, he]; rfl⟩
  | string set => simp [Arg.outOfRange] at ho

theorem doScan_cons {σ : Type} (bits : Nat) (a : Arg σ) (as : List (Arg σ)) (v : σ) (s : Str) :
    doScan bits (a :: as) v s =
      match scanOne bits a v s with
      | .error e => (v, some e)
      | .ok (v2, s2) => doScan bits as v2 s2 := rfl

/-- A record with fewer tokens than arguments, its numeric tokens plain: the scan fails. -/
theorem doScan_short {σ : Type} (bits : Nat) (args : List (Arg σ)) (v : σ) (s : Str)
    (hal : alignedTokens args (Fields s) = true) (hlen : (Fields s).length < args.length) :
    (doScan bits args v s).2 ≠ none := by
  induction args generalizing v s with
  | nil => simp at hlen
  | cons a as ih =>
    rw [doScan_cons]
    by_cases hs : SkipSpace s = []
    · rw [scanOne_eof bits a v s hs]
      simp
    · rw [fields_cons s hs] at hal hlen
      simp only [alignedTokens, Bool.and_eq_true, Bool.or_eq_true, Bool.not_eq_true'] at hal
      have hp : a.isNumeric = true → isPlainNum (firstToken s) = true := by
        intro hn
        rcases hal.1 with h | h
        · rw [hn] at h
          exact absurd h (by simp)
        · exact h
      rcases scanOne_aligned bits a v s hs hp with ⟨e, he⟩ | ⟨w, hw⟩
      · rw [he]
        simp
      · rw [hw]
        exact ih w (afterToken s) hal.2 (by simpa using hlen)

/-- A record with plain numeric tokens one of which is out of the range of its argument: the
scan fails. -/
theorem doScan_outOfRange {σ : Type} (bits : Nat) (hb : bits = 32 ∨ bits = 64)
    (args : List (Arg σ)) (v : σ) (s : Str) (hal : alignedTokens args (Fields s) = true)
    (hout : true ∈ List.zipWith (fun a t => a.outOfRange bits t) args (Fields s)) :
    (doScan bits args v s).2 ≠ none := by
  induction args generalizing v s with
  | nil => simp at hout
  | cons a as ih =>
    rw [doScan_cons]
    by_cases hs : SkipSpace s = []
    · rw [scanOne_eof bits a v s hs]
      simp
    · rw [fields_cons s hs] at hal hout
      simp only [alignedTokens, Bool.and_eq_true, Bool.or_eq_true, Bool.not_eq_true'] at hal
      have hp : a.isNumeric = true → isPlainNum (firstToken s) = true := by
        intro hn
        rcases hal.1 with h | h
        · rw [hn] at h
          exact absurd h (by simp)
        · exact h
      rw [List.zipWith_cons_cons, List.mem_cons] at hout
      rcases hout with hhead | htail
      · have hnum : a.isNumeric = true := by
          cases a <;> simp_all [Arg.outOfRange, Arg.isNumeric]
        obtain ⟨e, he⟩ := scanOne_outOfRange bits hb a v s hs (hp hnum) hhead.symm
        rw [he]
        simp
      · rcases scanOne_aligned bits a v s hs hp with ⟨e, he⟩ | ⟨w, hw⟩
        · rw [he]
          simp
        · rw [hw]
          exact ih w (afterToken s) hal.2 htail

theorem alignedTokens_of_all {σ : Type} (args : List (Arg σ)) (ts : List Str)
    (h : ts.all isPlainNum = true) : alignedTokens args ts = true := by
  induction args generalizing ts with
  | nil => rfl
  | cons a as ih =>
    cases ts with
    | nil => rfl
    | cons t ts =>
      simp only [List.all_cons, Bool.and_eq_true] at h
      simp only [alignedTokens, h.1, Bool.or_true, Bool.true_and]
      exact ih ts h.2

/-! ## Record parser: short records and numbers out of range -/

theorem loadArgs_split :
    ∃ f1 f2 f3 rest, loadArgs = Arg.int f1 :: Arg.string f2 :: Arg.string f3 :: rest :=
  ⟨_, _, _, _, rfl⟩

theorem alignedTokens_loadArgs (toks : List Str) (h : plainTokens toks = true) :
    alignedTokens loadArgs toks = true := by
  obtain ⟨f1, f2, f3, rest, hargs⟩ := loadArgs_split
  rw [hargs]
  match toks, h with
  | [], _ => rfl
  | [pid], h =>
    simp only [plainTokens] at h
    simp [alignedTokens, h]
  | [pid, comm], h =>
    simp only [plainTokens] at h
    simp [alignedTokens, h, Arg.isNumeric]
  | pid :: comm :: state :: more, h =>
    simp only [plainTokens, Bool.and_eq_true] at h
    simp only [alignedTokens, h.1, Bool.or_true, Bool.true_and, Arg.isNumeric, Bool.not_false]
    exact alignedTokens_of_all rest more h.2

/-- C3 (as stated, refuted): a record of 51 white-space-delimited tokens, in which the pid
and the command are not separated by a space, loads with a nil error. -/
theorem load_glued_record_succeeds :
    (Fields gluedRecord).length < 52 ∧
    (ProcStat.Load 64 {} gluedRecord).2 = none ∧
    (ProcStat.Load 32 {} gluedRecord).2 = none ∧
    (ProcStat.Load 64 {} gluedRecord).1.Pid = 14066 ∧
    (ProcStat.Load 64 {} gluedRecord).1.Comm = "nvim".toList ∧
    (ProcStat.Load 64 {} gluedRecord).1.EnvEnd = 3219644398 :=
  ⟨by decide!, rfl, rfl, rfl, rfl, rfl⟩

/-- C3 (amended): every record with fewer than 52 white-space-delimited tokens, the empty
record included, in which the first token and every token after the third are plain decimal
numerals, makes Load return a non-nil error, for every receiver and every word size. -/
theorem load_short_record_fails (intBits : Nat) (stat : ProcStat) (record : Str)
    (hshort : (Fields record).length < 52) (hplain : plainTokens (Fields record) = true) :
    (ProcStat.Load intBits stat record).2 ≠ none := by
  have hlen : (Fields record).length < loadArgs.length := by
    have : loadArgs.length = 52 := rfl
    omega
  exact doScan_short intBits loadArgs _ record (alignedTokens_loadArgs _ hplain) hlen

theorem load_short_record_fails_witness :
    (Fields truncatedRecord).length = 51 ∧
    plainTokens (Fields truncatedRecord) = true ∧
    (ProcStat.Load 64 {} truncatedRecord).2 ≠ none ∧
    (ProcStat.Load 64 {} []).2 ≠ none :=
  ⟨by decide!, by decide!,
   load_short_record_fails 64 {} truncatedRecord (by decide!) (by decide!),
   load_short_record_fails 64 {} [] (by decide) (by decide)⟩

/-- C4 (as stated, refuted): a record of 52 tokens whose last token, 99999999999999999999,
is beyond the int range of ExitCode loads with a nil error: the pid and the command share
the first token, so that the last token is never scanned. -/
theorem load_shifted_record_succeeds :
    (Fields shiftedRecord).length = 52 ∧
    (Fields shiftedRecord).getLast? = some "99999999999999999999".toList ∧
    true ∈ List.zipWith (fun a t => a.outOfRange 64 t) loadArgs (Fields shiftedRecord) ∧
    (ProcStat.Load 64 {} shiftedRecord).2 = none ∧
    (ProcStat.Load 64 {} shiftedRecord).1.EnvEnd = 3219644398 ∧
    (ProcStat.Load 64 {} shiftedRecord).1.ExitCode = 0 :=
  ⟨by decide!, by decide!, by decide!, rfl, rfl, rfl⟩

/-- C4 (amended): for every record in which the first token and every token after the third
are plain decimal numerals (in particular every such 52-token record), if some token is out
of the range of the type of the field at its position (an int beyond the int range, a uint or
uint64 that is negative or beyond the unsigned range), Load returns a non-nil error. -/
theorem load_out_of_range_fails (intBits : Nat) (hbits : intBits = 32 ∨ intBits = 64)
    (stat : ProcStat) (record : Str) (hplain : plainTokens (Fields record) = true)
    (hout : true ∈ List.zipWith (fun a t => a.outOfRange intBits t) loadArgs (Fields record)) :
    (ProcStat.Load intBits stat record).2 ≠ none :=
  doScan_outOfRange intBits hbits loadArgs _ record (alignedTokens_loadArgs _ hplain) hout

theorem load_out_of_range_fails_witness :
    plainTokens (Fields negativeFlagsRecord) = true ∧
    (Fields negativeFlagsRecord).length = 52 ∧
    (ProcStat.Load 64 {} negativeFlagsRecord).2 ≠ none ∧
    (ProcStat.Load 64 {} hugeStartTimeRecord).2 ≠ none ∧
    (ProcStat.Load 32 {} hugePpidRecord).2 ≠ none :=
  ⟨by decide!, by decide!,
   load_out_of_range_fails 64 (Or.inr rfl) {} negativeFlagsRecord (by decide!) (by decide!),
   load_out_of_range_fails 64 (Or.inr rfl) {} hugeStartTimeRecord (by decide!) (by decide!),
   load_out_of_range_fails 32 (Or.inl rfl) {} hugePpidRecord (by decide!) (by decide!)⟩

/-! ## Metadata enricher -/

/-- C12: for every non-negative ioprio, IOPrio_Split gives class = ioprio >> 13 (that is
ioprio / 8192) and data = ioprio & 0xff (that is ioprio mod 256); hence a class c in 0..3
and a level l in 0..255 packed as (c << 13) | l are given back as (c, l). -/
theorem ioprio_split (ioprio : Nat) :
    IOPrio_Split (ioprio : Int) =
      (((ioprio >>> 13 : Nat) : Int), ((ioprio &&& 0xff : Nat) : Int)) ∧
    IOPrio_Split (ioprio : Int) = (((ioprio / 8192 : Nat) : Int), ((ioprio % 256 : Nat) : Int)) ∧
    (∀ c l : Nat, c ≤ 3 → l ≤ 255 →
      IOPrio_Split (((c <<< 13 ||| l : Nat) : Int)) = ((c : Int), (l : Int))) := by
  have h1 : IOPrio_Split (ioprio : Int) =
      (((ioprio >>> 13 : Nat) : Int), ((ioprio &&& 0xff : Nat) : Int)) := rfl
  have h2 : ∀ n : Nat, n >>> 13 = n / 8192 ∧ n &&& 0xff = n % 256 := by
    intro n
    refine ⟨by rw [Nat.shiftRight_eq_div_pow], ?_⟩
    have := Nat.and_pow_two_sub_one_eq_mod n 8
    simpa using this
  refine ⟨h1, ?_, ?_⟩
  · rw [h1, (h2 ioprio).1, (h2 ioprio).2]
  · intro c l _ hl
    have h3 : IOPrio_Split (((c <<< 13 ||| l : Nat) : Int)) =
        ((((c <<< 13 ||| l) >>> 13 : Nat) : Int), (((c <<< 13 ||| l) &&& 0xff : Nat) : Int)) := rfl
    have h4 : c <<< 13 ||| l = 2 ^ 13 * c + l := by
      rw [Nat.shiftLeft_eq, Nat.mul_comm]
      exact (Nat.mul_add_lt_is_or (by omega) c).symm
    rw [h3, (h2 _).1, (h2 _).2, h4]
    have h5 : (2 ^ 13 * c + l) / 8192 = c := by omega
    have h6 : (2 ^ 13 * c + l) % 256 = l := by omega
    rw [h5, h6]

theorem ioprio_split_witness :
    (2 : Nat) ≤ 3 ∧ (4 : Nat) ≤ 255 ∧ ((2 <<< 13 ||| 4 : Nat) : Int) = 16388 ∧
    IOPrio_Split 16388 = (2, 4) :=
  ⟨by decide, by decide, by decide, (ioprio_split 0).2.2 2 4 (by decide) (by decide)⟩

theorem splitAux_noSep (pre rest cur : Str) (hpre : '/' ∉ pre) :
    SplitAux '/' cur (pre ++ rest) = SplitAux '/' (cur ++ pre) rest := by
  induction pre generalizing cur with
  | nil => simp
  | cons c cs ih =>
    have hc : c ≠ '/' := fun h => hpre (h ▸ List.mem_cons_self _ _)
    rw [List.cons_append, SplitAux, if_neg hc, ih _ (fun h => hpre (List.mem_cons_of_mem _ h))]
    simp

theorem splitAux_joinSegments (segs : List Str) (hsegs : ∀ s ∈ segs, '/' ∉ s) (pre cur : Str)
    (hpre : '/' ∉ pre) :
    SplitAux '/' cur (pre ++ joinSegments segs) = (cur ++ pre) :: segs := by
  induction segs generalizing pre cur with
  | nil =>
    rw [splitAux_noSep pre _ cur hpre]
    rfl
  | cons s rest ih =>
    rw [splitAux_noSep pre _ cur hpre]
    have h := ih (fun t ht => hsegs t (List.mem_cons_of_mem _ ht)) s []
      (hsegs s (List.mem_cons_self _ _))
    have hj : joinSegments (s :: rest) = '/' :: (s ++ joinSegments rest) := rfl
    rw [hj, SplitAux, if_pos rfl, h, List.nil_append]

/-- C13: when the cgroup file of the process is read, with c its content trimmed of
surrounding white space: for c = "0::/" setCgroup stores ["0::/", "", ""]; for
c = "0::/s1/.../sn" with n ≥ 1 (no segment containing '/') other than "0::/", it stores
[c, s1, sn]. In both cases it returns a nil error. -/
theorem setCgroup_segments (sys : Sys) (p : Proc) (data : Str)
    (hread : sys.readFile p.Pid "cgroup".toList = some data) :
    (TrimSpace data = "0::/".toList →
      p.setCgroup sys = .ok ({ p with Cgroup := ⟨"0::/".toList, [], []⟩ }, none)) ∧
    (∀ (s1 : Str) (more : List Str), (∀ s ∈ s1 :: more, '/' ∉ s) →
      TrimSpace data = "0::".toList ++ joinSegments (s1 :: more) →
      TrimSpace data ≠ "0::/".toList →
      p.setCgroup sys = .ok ({ p with Cgroup :=
        ⟨TrimSpace data, s1, (s1 :: more).getLast (List.cons_ne_nil _ _)⟩ }, none)) := by
  have hget : GetCgroup sys p.Pid = (TrimSpace data, none) := by
    simp only [GetCgroup, GetResource, hread]
  constructor
  · intro hroot
    simp only [Proc.setCgroup, hget, hroot, ne_eq, not_true_eq_false, if_false]
  · intro s1 more hsegs hc hne
    have hsplit : Split (TrimSpace data) '/' = "0::".toList :: s1 :: more := by
      rw [hc]
      exact splitAux_joinSegments (s1 :: more) hsegs "0::".toList [] (by decide)
    simp only [Proc.setCgroup, hget, ne_eq, hne, not_false_eq_true, if_true, hsplit]
    have hlast : ("0::".toList :: s1 :: more).getLast? =
        some ((s1 :: more).getLast (List.cons_ne_nil _ _)) := by
      rw [List.getLast?_eq_getLast _ (List.cons_ne_nil _ _), List.getLast_cons]
    rw [hlast]
    rfl

theorem setCgroup_segments_witness :
    sampleSys.readFile 14066 "cgroup".toList =
      some "0::/user.slice/user-1000.slice/session-2.scope\n".toList ∧
    ({ Pid := 14066 } : Proc).setCgroup sampleSys =
      .ok ({ Pid := 14066, Cgroup := ⟨"0::/user.slice/user-1000.slice/session-2.scope".toList,
        "user.slice".toList, "session-2.scope".toList⟩ }, none) :=
  ⟨by decide,
   (setCgroup_segments sampleSys { Pid := 14066 }
      "0::/user.slice/user-1000.slice/session-2.scope\n".toList (by decide)).2
      "user.slice".toList ["user-1000.slice".toList, "session-2.scope".toList]
      (by decide) (by decide) (by decide)⟩

theorem setUser_ok (sys : Sys) (p : Proc) :
    ∃ q, p.setUser sys = .ok (q, none) ∧ q.toProcStat = p.toProcStat ∧
      q.Uid = GetUid sys p.Pid ∧ q.owner = (GetUser sys (GetUid sys p.Pid)).getD p.owner ∧
      q.Cgroup = p.Cgroup := by
  unfold Proc.setUser
  simp only
  cases h : GetUser sys (GetUid sys p.Pid) with
  | none => exact ⟨_, rfl, rfl, rfl, rfl, rfl⟩
  | some owner => exact ⟨_, rfl, rfl, rfl, rfl, rfl⟩

theorem setCgroup_ok (sys : Sys) (p q : Proc) (e : Option GoError)
    (h : p.setCgroup sys = .ok (q, e)) :
    e = none ∧ q.toProcStat = p.toProcStat ∧ q.Uid = p.Uid ∧ q.owner = p.owner := by
  unfold Proc.setCgroup at h
  have hg : (GetCgroup sys p.Pid).2 = none := by
    unfold GetCgroup
    cases GetResource sys p.Pid "cgroup".toList <;> rfl
  rcases hgc : GetCgroup sys p.Pid with ⟨cgroup, ge⟩
  rw [hgc] at h hg
  simp only at hg
  subst hg
  simp only at h
  split_ifs at h
  · split at h
    · simp only [Outcome.ok.injEq, Prod.mk.injEq] at h
      obtain ⟨rfl, rfl⟩ := h
      exact ⟨rfl, rfl, rfl, rfl⟩
    · exact absurd h (by simp)
  · simp only [Outcome.ok.injEq, Prod.mk.injEq] at h
    obtain ⟨rfl, rfl⟩ := h
    exact ⟨rfl, rfl, rfl, rfl⟩

theorem setOomScoreAdj_ok (sys : Sys) (p : Proc) :
    ∃ q, p.setOomScoreAdj sys = .ok (q, none) ∧ q.toProcStat = p.toProcStat ∧ q.Uid = p.Uid ∧
      q.owner = p.owner ∧ q.Cgroup = p.Cgroup := by
  unfold Proc.setOomScoreAdj
  rcases GetOomScoreAdj sys p.Pid with ⟨v, _ | e⟩
  · exact ⟨_, rfl, rfl, rfl, rfl, rfl⟩
  · exact ⟨_, rfl, rfl, rfl, rfl, rfl⟩

theorem setIOPrio_ok (sys : Sys) (p : Proc) :
    ∃ q, p.setIOPrio sys = .ok (q, none) ∧ q.toProcStat = p.toProcStat ∧ q.Uid = p.Uid ∧
      q.owner = p.owner ∧ q.Cgroup = p.Cgroup := by
  unfold Proc.setIOPrio
  cases IOPrio_Get sys p.Pid with
  | none => exact ⟨_, rfl, rfl, rfl, rfl, rfl⟩
  | some v => exact ⟨_, rfl, rfl, rfl, rfl, rfl⟩

theorem setCgroup_panics (sys : Sys) (p : Proc)
    (hread : sys.readFile p.Pid "cgroup".toList = none) : p.setCgroup sys = .panic := by
  have hget : GetCgroup sys p.Pid = ([], none) := by
    simp only [GetCgroup, GetResource, hread]
  simp only [Proc.setCgroup, hget]
  rfl

/-- The run of the four setters from a descriptor: setUser, setOomScoreAdj and setIOPrio
always return a nil error, so the outcome is that of setCgroup followed by the two last
setters. -/
theorem runSetters_eq (sys : Sys) (p : Proc) :
    ∃ p1, p.setUser sys = .ok (p1, none) ∧
      ((p1.setCgroup sys = .panic ∧ runSetters (Proc.setters sys) p = .panic) ∨
       (∃ p2 p3 p4, p1.setCgroup sys = .ok (p2, none) ∧ p2.setOomScoreAdj sys = .ok (p3, none) ∧
          p3.setIOPrio sys = .ok (p4, none) ∧
          runSetters (Proc.setters sys) p = .ok (p4, none))) := by
  obtain ⟨p1, h1, _⟩ := setUser_ok sys p
  refine ⟨p1, h1, ?_⟩
  cases h2 : p1.setCgroup sys with
  | panic =>
    left
    exact ⟨rfl, by simp only [Proc.setters, runSetters, h1, h2]⟩
  | ok r =>
    obtain ⟨p2, e⟩ := r
    have he := (setCgroup_ok sys p1 p2 e h2).1
    subst he
    obtain ⟨p3, h3, _⟩ := setOomScoreAdj_ok sys p2
    obtain ⟨p4, h4, _⟩ := setIOPrio_ok sys p3
    right
    exact ⟨p2, p3, p4, rfl, h3, h4, by simp only [Proc.setters, runSetters, h1, h2, h3, h4]⟩

theorem newProcFromStat_of_load_error (sys : Sys) (stat : Str) (e : GoError)
    (h : (ProcStat.Load sys.intBits {} stat).2 = some e) :
    NewProcFromStat sys stat =
      .ok ({ toProcStat := (ProcStat.Load sys.intBits {} stat).1 }, some e) := by
  unfold NewProcFromStat
  simp only
  have h2 : (ProcStat.Load sys.intBits ({} : Proc).toProcStat stat).2 = some e := h
  rw [h2]

theorem newProcFromStat_of_load_ok (sys : Sys) (stat : Str)
    (h : (ProcStat.Load sys.intBits {} stat).2 = none) :
    NewProcFromStat sys stat =
      runSetters (Proc.setters sys) { toProcStat := (ProcStat.Load sys.intBits {} stat).1 } := by
  unfold NewProcFromStat
  simp only
  have h2 : (ProcStat.Load sys.intBits ({} : Proc).toProcStat stat).2 = none := h
  rw [h2]

/-- C14 (the code at the failing inputs): whenever the record loads and the cgroup file of
its process cannot be read, NewProcFromStat ends in a runtime panic (index out of range in
setCgroup): no descriptor is returned and the two remaining setters do not run. -/
theorem newProcFromStat_panics_without_cgroup (sys : Sys) (stat : Str)
    (hload : (ProcStat.Load sys.intBits {} stat).2 = none)
    (hread : sys.readFile (ProcStat.Load sys.intBits {} stat).1.Pid "cgroup".toList = none) :
    NewProcFromStat sys stat = .panic := by
  rw [newProcFromStat_of_load_ok sys stat hload]
  obtain ⟨p1, h1, hrest⟩ := runSetters_eq sys
    { toProcStat := (ProcStat.Load sys.intBits {} stat).1 }
  obtain ⟨q, hq, hstat, _⟩ := setUser_ok sys
    { toProcStat := (ProcStat.Load sys.intBits {} stat).1 }
  rw [h1] at hq
  simp only [Outcome.ok.injEq, Prod.mk.injEq, and_true] at hq
  subst hq
  have hpid : p1.Pid = (ProcStat.Load sys.intBits {} stat).1.Pid := by
    rw [show p1.Pid = p1.toProcStat.Pid from rfl, hstat]
  have hp := setCgroup_panics sys p1 (by rw [hpid]; exact hread)
  rcases hrest with ⟨_, h⟩ | ⟨p2, _, _, h2, _⟩
  · exact h
  · rw [hp] at h2
    exact absurd h2 (by simp)

theorem newProcFromStat_panics_without_cgroup_witness :
    (ProcStat.Load goneCgroupSys.intBits {} nvimRecord).2 = none ∧
    goneCgroupSys.readFile 14066 "cgroup".toList = none ∧
    NewProcFromStat goneCgroupSys nvimRecord = .panic :=
  ⟨rfl, rfl, newProcFromStat_panics_without_cgroup goneCgroupSys nvimRecord rfl rfl⟩

/-- C19: each of the four setters returns a nil error whenever it returns, for every state
of the system (lookup succeeding or failing); hence NewProcFromStat returns a non-nil error
exactly when Load fails, and the error it returns is always the error of Load. -/
theorem setters_return_nil (sys : Sys) :
    (∀ p q e, Proc.setUser sys p = .ok (q, e) → e = none) ∧
    (∀ p q e, Proc.setCgroup sys p = .ok (q, e) → e = none) ∧
    (∀ p q e, Proc.setOomScoreAdj sys p = .ok (q, e) → e = none) ∧
    (∀ p q e, Proc.setIOPrio sys p = .ok (q, e) → e = none) ∧
    (∀ stat, (∃ p e, NewProcFromStat sys stat = .ok (p, some e)) ↔
      (ProcStat.Load sys.intBits {} stat).2 ≠ none) ∧
    (∀ stat p err, NewProcFromStat sys stat = .ok (p, err) →
      err = (ProcStat.Load sys.intBits {} stat).2) := by
  have hnew : ∀ stat p err, NewProcFromStat sys stat = .ok (p, err) →
      err = (ProcStat.Load sys.intBits {} stat).2 := by
    intro stat p err h
    cases hl : (ProcStat.Load sys.intBits {} stat).2 with
    | some e =>
      rw [newProcFromStat_of_load_error sys stat e hl] at h
      simp only [Outcome.ok.injEq, Prod.mk.injEq] at h
      exact h.2.symm
    | none =>
      rw [newProcFromStat_of_load_ok sys stat hl] at h
      obtain ⟨p1, _, hrest⟩ := runSetters_eq sys
        { toProcStat := (ProcStat.Load sys.intBits {} stat).1 }
      rcases hrest with ⟨_, hp⟩ | ⟨_, _, p4, _, _, _, hr⟩
      · rw [hp] at h
        exact absurd h (by simp)
      · rw [hr] at h
        simp only [Outcome.ok.injEq, Prod.mk.injEq] at h
        exact h.2.symm
  refine ⟨?_, ?_, ?_, ?_, ?_, hnew⟩
  · intro p q e h
    obtain ⟨q2, h2, _⟩ := setUser_ok sys p
    rw [h2] at h
    simp only [Outcome.ok.injEq, Prod.mk.injEq] at h
    exact h.2.symm
  · intro p q e h
    exact (setCgroup_ok sys p q e h).1
  · intro p q e h
    obtain ⟨q2, h2, _⟩ := setOomScoreAdj_ok sys p
    rw [h2] at h
    simp only [Outcome.ok.injEq, Prod.mk.injEq] at h
    exact h.2.symm
  · intro p q e h
    obtain ⟨q2, h2, _⟩ := setIOPrio_ok sys p
    rw [h2] at h
    simp only [Outcome.ok.injEq, Prod.mk.injEq] at h
    exact h.2.symm
  · intro stat
    constructor
    · rintro ⟨p, e, h⟩
      rw [← hnew stat p (some e) h]
      simp
    · intro h
      cases hl : (ProcStat.Load sys.intBits {} stat).2 with
      | none => exact absurd hl h
      | some e => exact ⟨_, e, newProcFromStat_of_load_error sys stat e hl⟩

theorem setters_return_nil_witness :
    (∃ q, Proc.setOomScoreAdj goneCgroupSys { Pid := 14066 } = .ok (q, none)) ∧
    (ProcStat.Load sampleSys.intBits {} spacedRecord).2 ≠ none ∧
    (∃ p e, NewProcFromStat sampleSys spacedRecord = .ok (p, some e)) ∧
    (∃ p, NewProcFromStat sampleSys nvimRecord = .ok (p, none)) ∧
    (ProcStat.Load sampleSys.intBits {} nvimRecord).2 = none :=
  ⟨⟨_, rfl⟩, by decide!,
   ((setters_return_nil sampleSys).2.2.2.2.1 spacedRecord).mpr (by decide!),
   ⟨_, rfl⟩,
   ((setters_return_nil sampleSys).2.2.2.2.2 nvimRecord _ none rfl).symm⟩

theorem splitAux_ne_nil (cur s : Str) : SplitAux '/' cur s ≠ [] := by
  induction s generalizing cur with
  | nil => simp [SplitAux]
  | cons c cs ih =>
    rw [SplitAux]
    split_ifs
    · simp
    · exact ih _

theorem splitAux_two_parts (s cur : Str) (h : '/' ∈ s) :
    ∃ a b rest, SplitAux '/' cur s = a :: b :: rest := by
  induction s generalizing cur with
  | nil => simp at h
  | cons c cs ih =>
    rw [SplitAux]
    by_cases hc : c = '/'
    · rw [if_pos hc]
      cases hs : SplitAux '/' [] cs with
      | nil => exact absurd hs (splitAux_ne_nil [] cs)
      | cons b rest => exact ⟨cur, b, rest, rfl⟩
    · rw [if_neg hc]
      rcases List.mem_cons.mp h with h1 | h1
      · exact absurd h1.symm hc
      · exact ih _ h1

theorem setCgroup_returns (sys : Sys) (p : Proc) (data : Str)
    (hread : sys.readFile p.Pid "cgroup".toList = some data) (hpath : '/' ∈ TrimSpace data) :
    ∃ q, p.setCgroup sys = .ok (q, none) := by
  have hget : GetCgroup sys p.Pid = (TrimSpace data, none) := by
    simp only [GetCgroup, GetResource, hread]
  obtain ⟨a, b, rest, hsplit⟩ := splitAux_two_parts (TrimSpace data) [] hpath
  have hsplit2 : Split (TrimSpace data) '/' = a :: b :: rest := hsplit
  by_cases hroot : TrimSpace data = "0::/".toList
  · refine ⟨{ p with Cgroup := ⟨"0::/".toList, [], []⟩ }, ?_⟩
    simp only [Proc.setCgroup, hget, hroot, ne_eq, not_true_eq_false, if_false]
  · have hlast : (a :: b :: rest).getLast? =
        some ((a :: b :: rest).getLast (List.cons_ne_nil _ _)) :=
      List.getLast?_eq_getLast _ _
    refine ⟨{ p with Cgroup :=
      ⟨TrimSpace data, b, (a :: b :: rest).getLast (List.cons_ne_nil _ _)⟩ }, ?_⟩
    simp only [Proc.setCgroup, hget, ne_eq, hroot, not_false_eq_true, if_true, hsplit2, hlast]
    rfl

/-- C15 (as stated, refuted): the stat query on /proc/14066 fails in both systems. In the
first the process has exited, so its cgroup file cannot be read either: NewProcFromStat
panics, no descriptor exists, the all filter has nothing to accept and the scan under the all
filter ends in the panic. In the second the user database has an entry for the id -1: the
descriptor has Uid = -1 and the Username "nobody", not an empty one. -/
theorem owner_lookup_failure_not_as_stated :
    (ProcStat.Load exitedSys.intBits {} nvimRecord).2 = none ∧
    exitedSys.statUid 14066 = none ∧
    NewProcFromStat exitedSys nvimRecord = .panic ∧
    acceptedOne exitedSys (GetFilterer exitedSys "all".toList) nvimRecord = none ∧
    FilteredProcs exitedSys (GetFilterer exitedSys "all".toList) [some nvimRecord] 1
      (serialSched [some nvimRecord]) = some .panic ∧
    (ProcStat.Load namedOwnerSys.intBits {} nvimRecord).2 = none ∧
    namedOwnerSys.statUid 14066 = none ∧
    (∃ p, NewProcFromStat namedOwnerSys nvimRecord = .ok (p, none) ∧ p.Uid = -1 ∧
      p.Username = "nobody".toList ∧ p.Username ≠ []) :=
  ⟨rfl, rfl, rfl, rfl, by decide!, rfl, rfl, ⟨_, rfl, rfl, rfl, by decide!⟩⟩

/-- C15 (amended): when the record loads, the stat query on /proc/pid fails, the user database
has no entry for the id -1 that GetUid then returns, and the cgroup file of the process is
read and holds a '/', NewProcFromStat returns a descriptor with a nil error that has
Uid = -1 and an empty Username; the all filter accepts it and, for every caller uid ≥ 0, the
user filter rejects it. -/
theorem owner_lookup_failure (sys : Sys) (stat data : Str)
    (hload : (ProcStat.Load sys.intBits {} stat).2 = none)
    (hstat : sys.statUid (ProcStat.Load sys.intBits {} stat).1.Pid = none)
    (hname : sys.lookupId (-1) = none) (huid : 0 ≤ sys.getuid)
    (hread : sys.readFile (ProcStat.Load sys.intBits {} stat).1.Pid "cgroup".toList = some data)
    (hpath : '/' ∈ TrimSpace data) :
    ∃ p, NewProcFromStat sys stat = .ok (p, none) ∧ p.Uid = -1 ∧ p.Username = [] ∧
      (GetFilterer sys "all".toList).Filter p none = true ∧
      acceptedOne sys (GetFilterer sys "all".toList) stat = some p ∧
      (GetFilterer sys "user".toList).Filter p none = false ∧
      acceptedOne sys (GetFilterer sys "user".toList) stat = none := by
  have hnew := newProcFromStat_of_load_ok sys stat hload
  obtain ⟨p1, h1, hrest⟩ := runSetters_eq sys
    { toProcStat := (ProcStat.Load sys.intBits {} stat).1 }
  obtain ⟨q1, hq1, hs1, hu1, ho1, _⟩ := setUser_ok sys
    { toProcStat := (ProcStat.Load sys.intBits {} stat).1 }
  rw [h1] at hq1
  simp only [Outcome.ok.injEq, Prod.mk.injEq, and_true] at hq1
  subst hq1
  have hgu : GetUid sys (ProcStat.Load sys.intBits {} stat).1.Pid = -1 := by
    simp only [GetUid, hstat]
  have hu1' : p1.Uid = -1 := by rw [hu1]; exact hgu
  have ho1' : p1.owner = {} := by
    rw [ho1]
    have : GetUid sys ({ toProcStat := (ProcStat.Load sys.intBits {} stat).1 } : Proc).Pid = -1 :=
      hgu
    rw [this]
    simp only [GetUser, hname, Option.getD_none]
  have hpid : p1.Pid = (ProcStat.Load sys.intBits {} stat).1.Pid := by
    rw [show p1.Pid = p1.toProcStat.Pid from rfl, hs1]
  obtain ⟨q2, hq2⟩ := setCgroup_returns sys p1 data (by rw [hpid]; exact hread) hpath
  rcases hrest with ⟨hp, _⟩ | ⟨p2, p3, p4, h2, h3, h4, hr⟩
  · rw [hq2] at hp
    exact absurd hp (by simp)
  · obtain ⟨_, _, hu2, ho2⟩ := setCgroup_ok sys p1 p2 none h2
    obtain ⟨q3, hq3, _, hu3, ho3, _⟩ := setOomScoreAdj_ok sys p2
    rw [h3] at hq3
    simp only [Outcome.ok.injEq, Prod.mk.injEq, and_true] at hq3
    subst hq3
    obtain ⟨q4, hq4, _, hu4, ho4, _⟩ := setIOPrio_ok sys p3
    rw [h4] at hq4
    simp only [Outcome.ok.injEq, Prod.mk.injEq, and_true] at hq4
    subst hq4
    have hU : p4.Uid = -1 := by rw [hu4, hu3, hu2, hu1']
    have hO : p4.owner = {} := by rw [ho4, ho3, ho2, ho1']
    have hret : NewProcFromStat sys stat = .ok (p4, none) := by rw [hnew, hr]
    have hall : (GetFilterer sys "all".toList).Filter p4 none = true := by
      rw [getFilterer_all sys _ (toLower_all sys)]
      rfl
    have huser : (GetFilterer sys "user".toList).Filter p4 none = false := by
      rw [getFilterer_default sys _ (by rw [toLower_user]; decide) (by rw [toLower_user]; decide)
        (by rw [toLower_user]; decide)]
      have hne : (p4.Uid == sys.getuid) = false := by
        rw [hU]
        simp only [beq_eq_false_iff_ne, ne_eq]
        omega
      simp only [ProcFilter.Filter, hne, Bool.and_false, Bool.false_and]
    refine ⟨p4, hret, hU, ?_, hall, ?_, huser, ?_⟩
    · simp only [Proc.Username, hO]
    · simp only [acceptedOne, hret, hall, if_true]
    · simp only [acceptedOne, hret, huser, Bool.false_eq_true, if_false]

theorem owner_lookup_failure_witness :
    (ProcStat.Load noOwnerSys.intBits {} nvimRecord).2 = none ∧
    noOwnerSys.statUid 14066 = none ∧ noOwnerSys.lookupId (-1) = none ∧
    (0 : Int) ≤ noOwnerSys.getuid ∧
    noOwnerSys.readFile 14066 "cgroup".toList =
      some "0::/user.slice/user-1000.slice/session-2.scope\n".toList ∧
    (∃ p, NewProcFromStat noOwnerSys nvimRecord = .ok (p, none) ∧ p.Uid = -1 ∧
      p.Username = [] ∧
      (GetFilterer noOwnerSys "all".toList).Filter p none = true ∧
      acceptedOne noOwnerSys (GetFilterer noOwnerSys "all".toList) nvimRecord = some p ∧
      (GetFilterer noOwnerSys "user".toList).Filter p none = false ∧
      acceptedOne noOwnerSys (GetFilterer noOwnerSys "user".toList) nvimRecord = none) :=
  ⟨rfl, rfl, rfl, by decide, rfl,
   owner_lookup_failure noOwnerSys nvimRecord
     "0::/user.slice/user-1000.slice/session-2.scope\n".toList rfl rfl rfl (by decide) rfl
     (by decide)⟩

/-! ## Record parser: the command name -/

/-- C16 (the code at a failing input): the record rendered from pid 1234 and the command
name "(sd-pam)" loads with a nil error, but Comm is "sd-pam", and String renders
"Comm: sd-pam": the command name is not reproduced. -/
theorem load_sdpam_record :
    (ProcStat.Load 64 {} sdpamRecord).2 = none ∧
    (ProcStat.Load 64 {} sdpamRecord).1.Pid = 1234 ∧
    (ProcStat.Load 64 {} sdpamRecord).1.Comm = "sd-pam".toList ∧
    (ProcStat.Load 64 {} sdpamRecord).1.Comm ≠ "(sd-pam)".toList ∧
    ((ProcStat.Load 64 {} sdpamRecord).1.String).take 57 =
      "\x7bPid: 1234, Comm: sd-pam, State: S, Ppid: 1, Pgrp: 1234, ".toList :=
  ⟨rfl, rfl, rfl, by decide, by decide!⟩

theorem scanOne_keeps {σ β : Type} (f : σ → β) (bits : Nat) (a : Arg σ) (v v2 : σ) (s s2 : Str)
    (ha : a.keeps f) (h : scanOne bits a v s = .ok (v2, s2)) : f v2 = f v := by
  cases a with
  | int set =>
    simp only [scanOne] at h
    cases hr : scanInt bits s with
    | error e => rw [hr] at h; exact absurd h (by simp [Except.map])
    | ok r =>
      rw [hr] at h
      simp only [Except.map, Except.ok.injEq, Prod.mk.injEq] at h
      rw [← h.1]
      exact ha v r.1
  | uint set =>
    simp only [scanOne] at h
    cases hr : scanUint bits s with
    | error e => rw [hr] at h; exact absurd h (by simp [Except.map])
    | ok r =>
      rw [hr] at h
      simp only [Except.map, Except.ok.injEq, Prod.mk.injEq] at h
      rw [← h.1]
      exact ha v r.1
  | uint64 set =>
    simp only [scanOne] at h
    cases hr : scanUint 64 s with
    | error e => rw [hr] at h; exact absurd h (by simp [Except.map])
    | ok r =>
      rw [hr] at h
      simp only [Except.map, Except.ok.injEq, Prod.mk.injEq] at h
      rw [← h.1]
      exact ha v r.1
  | string set =>
    simp only [scanOne] at h
    cases hr : convertString s with
    | error e => rw [hr] at h; exact absurd h (by simp [Except.map])
    | ok r =>
      rw [hr] at h
      simp only [Except.map, Except.ok.injEq, Prod.mk.injEq] at h
      rw [← h.1]
      exact ha v r.1

theorem doScan_keeps {σ β : Type} (f : σ → β) (bits : Nat) (args : List (Arg σ)) (v : σ)
    (s : Str) (h : ∀ a ∈ args, a.keeps f) : f (doScan bits args v s).1 = f v := by
  induction args generalizing v s with
  | nil => rfl
  | cons a as ih =>
    rw [doScan_cons]
    cases hr : scanOne bits a v s with
    | error e => rfl
    | ok r =>
      obtain ⟨v2, s2⟩ := r
      simp only
      rw [ih v2 s2 (fun b hb => h b (List.mem_cons_of_mem _ hb))]
      exact scanOne_keeps f bits a v v2 s s2 (h a (List.mem_cons_self _ _)) hr

theorem loadArgs_eq :
    loadArgs = Arg.int (fun v x => { v with stat := { v.stat with Pid := x } }) ::
      Arg.string (fun v x => { v with comm := x }) :: loadArgs.drop 2 := rfl

theorem loadArgs_keep_comm : ∀ a ∈ loadArgs.drop 2, a.keeps LoadVars.comm := by
  simp [loadArgs, Arg.keeps]

theorem trim_parens (comm : Str) (h1 : comm.head? ≠ some '(') (h2 : comm.head? ≠ some ')')
    (h3 : comm.getLast? ≠ some '(') (h4 : comm.getLast? ≠ some ')') :
    Trim ('(' :: comm ++ [')']) "()".toList = comm := by
  have hcut : ∀ c : Char, "()".toList.elem c = true ↔ (c = '(' ∨ c = ')') := by
    intro c
    simp
  cases comm with
  | nil => rfl
  | cons c cs =>
    have hc : "()".toList.elem c = false := by
      cases h : "()".toList.elem c with
      | false => rfl
      | true =>
        rcases (hcut c).mp h with rfl | rfl
        · exact absurd rfl h1
        · exact absurd rfl h2
    have hleft : TrimLeft ('(' :: (c :: cs) ++ [')']) "()".toList = (c :: cs) ++ [')'] := by
      have hp : "()".toList.elem '(' = true := rfl
      simp only [TrimLeft, List.cons_append, List.dropWhile_cons, hp, if_true, hc,
        Bool.false_eq_true, if_false]
    rw [Trim, hleft, TrimRight, List.reverse_append]
    have hp : "()".toList.elem ')' = true := rfl
    simp only [List.reverse_cons, List.reverse_nil, List.nil_append, List.singleton_append,
      List.dropWhile_cons, hp, if_true]
    cases hrev : (cs.reverse ++ [c]) with
    | nil => simp at hrev
    | cons l ls =>
      have hl : (c :: cs).getLast? = some l := by
        rw [← List.head?_reverse, List.reverse_cons, hrev]
        rfl
      have hlc : "()".toList.elem l = false := by
        cases h : "()".toList.elem l with
        | false => rfl
        | true =>
          rcases (hcut l).mp h with rfl | rfl
          · exact absurd hl h3
          · exact absurd hl h4
      simp only [List.dropWhile_cons, hlc, Bool.false_eq_true, if_false]
      rw [← hrev]
      simp

/-- C20 (as stated, refuted): the record with pid and command in one token loads with a nil
error; its second white-space-delimited token is "S", yet Comm is "nvim". -/
theorem load_glued_comm_not_second_token :
    (ProcStat.Load 64 {} gluedRecord).2 = none ∧
    (Fields gluedRecord).get? 1 = some "S".toList ∧
    (ProcStat.Load 64 {} gluedRecord).1.Comm = "nvim".toList ∧
    (ProcStat.Load 64 {} gluedRecord).1.Comm ≠ Trim "S".toList "()".toList :=
  ⟨rfl, by decide!, rfl, by decide⟩

/-- C20 (amended): for every record that loads successfully and whose first token is a plain
decimal numeral, Comm is the second white-space-delimited token of the record with every
leading and trailing '(' and ')' removed; so when that token is "(" + name + ")" for a name
that neither begins nor ends with a parenthesis, Comm is the name. -/
theorem load_comm_is_trimmed_token (intBits : Nat) (stat : ProcStat) (record pid : Str)
    (hfirst : (Fields record).head? = some pid) (hpid : isPlainNum pid = true)
    (hload : (ProcStat.Load intBits stat record).2 = none) :
    (∃ tok, (Fields record).get? 1 = some tok ∧
      (ProcStat.Load intBits stat record).1.Comm = Trim tok "()".toList) ∧
    (∀ name : Str, (Fields record).get? 1 = some ('(' :: name ++ [')']) →
      name.head? ≠ some '(' → name.head? ≠ some ')' →
      name.getLast? ≠ some '(' → name.getLast? ≠ some ')' →
      (ProcStat.Load intBits stat record).1.Comm = name) := by
  have hs : SkipSpace record ≠ [] := by
    intro h
    rw [fields_nil record h] at hfirst
    exact absurd hfirst (by simp)
  have hpid2 : isPlainNum (firstToken record) = true := by
    rw [fields_cons record hs] at hfirst
    simp only [List.head?_cons, Option.some.injEq] at hfirst
    rw [hfirst]
    exact hpid
  have hcomm : (ProcStat.Load intBits stat record).1.Comm =
      Trim (doScan intBits loadArgs { comm := [], stat := { stat with stat := record } }
        record).1.comm "()".toList := rfl
  have hload2 : (doScan intBits loadArgs { comm := [], stat := { stat with stat := record } }
      record).2 = none := hload
  rw [loadArgs_eq, doScan_cons] at hload2 hcomm
  simp only [scanOne, scanInt_plain intBits record hs hpid2] at hload2 hcomm
  cases hp : ParseInt (firstToken record) 0 64 with
  | error e =>
    rw [hp] at hload2
    exact absurd hload2 (by simp [Except.map])
  | ok i =>
    rw [hp] at hload2 hcomm
    simp only at hload2 hcomm
    split_ifs at hload2 hcomm with hov
    · exact absurd hload2 (by simp [Except.map])
    · simp only [Except.map] at hload2 hcomm
      rw [doScan_cons] at hload2 hcomm
      simp only [scanOne, convertString_eq] at hload2 hcomm
      by_cases hs2 : SkipSpace (afterToken record) = []
      · rw [if_pos hs2] at hload2
        exact absurd hload2 (by simp [Except.map])
      · rw [if_neg hs2] at hload2 hcomm
        simp only [Except.map] at hload2 hcomm
        rw [doScan_keeps LoadVars.comm intBits _ _ _ loadArgs_keep_comm] at hcomm
        simp only at hcomm
        have hsecond : (Fields record).get? 1 = some (firstToken (afterToken record)) := by
          rw [fields_cons record hs, fields_cons (afterToken record) hs2]
          rfl
        refine ⟨⟨_, hsecond, hcomm⟩, ?_⟩
        intro name hname h1 h2 h3 h4
        rw [hsecond] at hname
        simp only [Option.some.injEq] at hname
        rw [hcomm, hname]
        exact trim_parens name h1 h2 h3 h4

theorem load_comm_is_trimmed_token_witness :
    (Fields nvimRecord).head? = some "14066".toList ∧ isPlainNum "14066".toList = true ∧
    (ProcStat.Load 64 {} nvimRecord).2 = none ∧
    (Fields nvimRecord).get? 1 = some "(nvim)".toList ∧
    (ProcStat.Load 64 {} nvimRecord).1.Comm = "nvim".toList :=
  ⟨by decide!, by decide, rfl, by decide!,
   (load_comm_is_trimmed_token 64 {} nvimRecord "14066".toList (by decide!) (by decide) rfl).2
     "nvim".toList (by decide!) (by decide) (by decide) (by decide) (by decide)⟩

/-! ## Scan pipeline: what every run preserves -/

theorem filterMap_set_some (ws : List (Option Proc)) (i : Nat) (p : Proc)
    (h : ws.get? i = some none) :
    ((ws.set i (some p)).filterMap id).Perm (p :: ws.filterMap id) := by
  induction ws generalizing i with
  | nil => simp at h
  | cons w ws ih =>
    cases i with
    | zero =>
      simp only [List.get?_cons_zero, Option.some.injEq] at h
      subst h
      simp
    | succ j =>
      simp only [List.get?_cons_succ] at h
      have := ih j h
      cases w with
      | none => simpa using this
      | some q =>
        simp only [List.set_cons_succ, List.filterMap_cons_some, id_eq]
        exact (List.Perm.cons q this).trans (List.Perm.swap p q _)

theorem filterMap_set_none (ws : List (Option Proc)) (i : Nat) (p : Proc)
    (h : ws.get? i = some (some p)) :
    (ws.filterMap id).Perm (p :: (ws.set i none).filterMap id) := by
  induction ws generalizing i with
  | nil => simp at h
  | cons w ws ih =>
    cases i with
    | zero =>
      simp only [List.get?_cons_zero, Option.some.injEq] at h
      subst h
      simp
    | succ j =>
      simp only [List.get?_cons_succ] at h
      have := ih j h
      cases w with
      | none => simpa using this
      | some q =>
        simp only [List.set_cons_succ, List.filterMap_cons_some, id_eq]
        exact (List.Perm.cons q this).trans (List.Perm.swap p q _)

theorem accepted_append (sys : Sys) (filter : ProcFilter) (a b : List Str) :
    accepted sys filter (a ++ b) = accepted sys filter a ++ accepted sys filter b := by
  simp [accepted]

theorem accepted_cons (sys : Sys) (filter : ProcFilter) (r : Str) (rs : List Str) :
    accepted sys filter (r :: rs) =
      (acceptedOne sys filter r).toList ++ accepted sys filter rs := by
  unfold accepted
  cases h : acceptedOne sys filter r <;> simp [List.filterMap_cons, h]

theorem readRecords_none (fs : List (Option Str)) : readRecords (none :: fs) = readRecords fs :=
  rfl

theorem readRecords_some (data : Str) (fs : List (Option Str)) :
    readRecords (some data :: fs) = data :: readRecords fs := rfl

theorem scan_inv_init (sys : Sys) (filter : ProcFilter) (files : List (Option Str))
    (count : Nat) : Scan.Inv sys filter files (Scan.init files count) := by
  have hpend : (Scan.init files count).pending = [] := by
    simp [Scan.pending, Scan.init]
  constructor
  · rfl
  · simp [Scan.init]
  · simp [Scan.init]
  · rw [hpend]
    simp [Scan.init]
  · simp [Scan.init]
  · rw [hpend]
    simp [Scan.init]
  · intro r hr
    simpa [Scan.init] using hr
  · intro _
    rw [hpend]
    simp [Scan.init]
  · intro _ r hr
    left
    simpa [Scan.init] using hr
  · intro h
    simp [Scan.init] at h

theorem coe_append (a b : List Proc) :
    ((a ++ b : List Proc) : Multiset Proc) = (a : Multiset Proc) + (b : Multiset Proc) :=
  (Multiset.coe_add a b).symm

theorem coe_cons (p : Proc) (l : List Proc) :
    ((p :: l : List Proc) : Multiset Proc) = {p} + (l : Multiset Proc) := by
  rw [← Multiset.cons_coe, ← Multiset.singleton_add]

theorem scan_inv_dispatch (sys : Sys) (filter : ProcFilter) (files : List (Option Str))
    (st : Scan) (h : Scan.Inv sys filter files st) (hp : st.panicked = false) :
    Scan.Inv sys filter files (Scan.step sys filter st .dispatch) := by
  unfold Scan.step
  rw [if_neg (by simp [hp])]
  simp only
  have h2 := h.stats_room
  have h4 := h.procs_room
  have h6 := h.records_sub
  have h7 := h.conserved
  have h8 := h.handled
  rcases hf : st.files with _ | ⟨f, fs⟩
  · exact h
  · rw [hf] at h2 h4 h6 h7 h8
    simp only [List.length_cons] at h2 h4
    cases f with
    | none =>
      simp only
      rw [readRecords_none] at h6 h7 h8
      exact ⟨h.size_eq, by show st.statsSent + fs.length ≤ st.size; omega, h.stats_le,
        by show st.procsSent + st.pending.length + st.stats.length + fs.length ≤ st.size; omega,
        h.procs_le, h.one_result, h6, h7, h8, h.panic_cause⟩
    | some data =>
      simp only
      rw [readRecords_some] at h6 h7 h8
      split_ifs with hroom
      · refine ⟨h.size_eq, ?_, ?_, ?_, h.procs_le, ?_, ?_, ?_, ?_, h.panic_cause⟩
        · show st.statsSent + 1 + fs.length ≤ st.size
          omega
        · show (st.stats ++ [data]).length ≤ st.statsSent + 1
          have := h.stats_le
          simp only [List.length_append, List.length_singleton]
          omega
        · show st.procsSent + st.pending.length + (st.stats ++ [data]).length + fs.length
            ≤ st.size
          simp only [List.length_append, List.length_singleton]
          omega
        · show st.procsSent + st.pending.length + (st.stats ++ [data]).length
            ≤ st.statsSent + 1
          have := h.one_result
          simp only [List.length_append, List.length_singleton]
          omega
        · show ∀ r ∈ (st.stats ++ [data]) ++ readRecords fs, r ∈ readRecords files
          simpa using h6
        · show st.panicked = false → _
          simpa using h7
        · show st.panicked = false → _
          simpa using h8
      · exact h

theorem scan_inv_collect (sys : Sys) (filter : ProcFilter) (files : List (Option Str))
    (st : Scan) (h : Scan.Inv sys filter files st) (hp : st.panicked = false) :
    Scan.Inv sys filter files (Scan.step sys filter st .collect) := by
  unfold Scan.step
  rw [if_neg (by simp [hp])]
  simp only
  have h5 := h.procs_le
  have h7 := h.conserved
  rcases hq : st.procs with _ | ⟨p, ps⟩
  · exact h
  · rw [hq] at h5 h7
    simp only [List.length_cons] at h5
    refine ⟨h.size_eq, h.stats_room, h.stats_le, h.procs_room, ?_, h.one_result, h.records_sub,
      ?_, h.handled, h.panic_cause⟩
    · show ps.length ≤ st.procsSent
      omega
    · show st.panicked = false → _
      intro hpp
      rw [← h7 hpp]
      show (((st.result ++ [p]) ++ ps ++ st.pending ++ _ : List Proc) : Multiset Proc) = _
      simp

theorem scan_inv_send (sys : Sys) (filter : ProcFilter) (files : List (Option Str))
    (st : Scan) (i : Nat) (h : Scan.Inv sys filter files st) (hp : st.panicked = false) :
    Scan.Inv sys filter files (Scan.step sys filter st (.send i)) := by
  unfold Scan.step
  rw [if_neg (by simp [hp])]
  simp only
  have h4 := h.procs_room
  have h7 := h.conserved
  rcases hw : st.workers.get? i with _ | (_ | p)
  · exact h
  · exact h
  · simp only
    split_ifs with hroom
    · have hperm := filterMap_set_none st.workers i p hw
      have hlen : st.pending.length = ((st.workers.set i none).filterMap id).length + 1 := by
        simpa using hperm.length_eq
      refine ⟨h.size_eq, h.stats_room, h.stats_le, ?_, ?_, ?_, h.records_sub, ?_, h.handled,
        h.panic_cause⟩
      · show st.procsSent + 1 + ((st.workers.set i none).filterMap id).length + st.stats.length
          + st.files.length ≤ st.size
        omega
      · show (st.procs ++ [p]).length ≤ st.procsSent + 1
        have := h.procs_le
        simp only [List.length_append, List.length_singleton]
        omega
      · show st.procsSent + 1 + ((st.workers.set i none).filterMap id).length + st.stats.length
          ≤ st.statsSent
        have := h.one_result
        omega
      · show st.panicked = false → _
        intro hpp
        rw [← h7 hpp]
        show ((st.result ++ (st.procs ++ [p]) ++ (st.workers.set i none).filterMap id ++ _ :
          List Proc) : Multiset Proc) = ((st.result ++ st.procs ++ st.pending ++ _ : List Proc) :
          Multiset Proc)
        have hm : (st.pending : Multiset Proc) =
            (p :: (st.workers.set i none).filterMap id : List Proc) := Quotient.sound hperm
        simp only [coe_append, hm, coe_cons, Multiset.coe_nil]
        abel
    · exact h

theorem scan_inv_work (sys : Sys) (filter : ProcFilter) (files : List (Option Str))
    (st : Scan) (i : Nat) (h : Scan.Inv sys filter files st) (hp : st.panicked = false) :
    Scan.Inv sys filter files (Scan.step sys filter st (.work i)) := by
  unfold Scan.step
  rw [if_neg (by simp [hp])]
  simp only
  have h3 := h.stats_le
  have h4 := h.procs_room
  have h5 := h.one_result
  have h6 := h.records_sub
  have h7 := h.conserved
  have h8 := h.handled
  rcases hw : st.workers.get? i with _ | (_ | q)
  · exact h
  · rcases hs : st.stats with _ | ⟨stat, rest⟩
    · exact h
    · rw [hs] at h3 h4 h5 h6 h7 h8
      simp only [List.length_cons] at h3 h4 h5
      simp only
      have hsub : ∀ r ∈ rest ++ readRecords st.files, r ∈ readRecords files := by
        intro r hr
        apply h6
        simp only [List.cons_append, List.mem_cons]
        exact Or.inr hr
      rcases hn : NewProcFromStat sys stat with ⟨p, err⟩ | _
      · have hhandled : st.panicked = false → ∀ r ∈ readRecords files,
            r ∈ rest ++ readRecords st.files ∨ NewProcFromStat sys r ≠ .panic := by
          intro hpp r hr
          rcases h8 hpp r hr with hmem | hnp
          · simp only [List.cons_append, List.mem_cons] at hmem
            rcases hmem with rfl | hmem
            · right
              rw [hn]
              simp
            · exact Or.inl hmem
          · exact Or.inr hnp
        simp only
        split_ifs with hacc
        · have hperm := filterMap_set_some st.workers i p hw
          have hlen : ((st.workers.set i (some p)).filterMap id).length =
              st.pending.length + 1 := by
            simpa using hperm.length_eq
          have hone : acceptedOne sys filter stat = some p := by
            simp only [acceptedOne, hn, hacc, if_true]
          refine ⟨h.size_eq, h.stats_room, ?_, ?_, h.procs_le, ?_, hsub, ?_, hhandled,
            h.panic_cause⟩
          · show rest.length ≤ st.statsSent
            omega
          · show st.procsSent + ((st.workers.set i (some p)).filterMap id).length + rest.length
              + st.files.length ≤ st.size
            omega
          · show st.procsSent + ((st.workers.set i (some p)).filterMap id).length + rest.length
              ≤ st.statsSent
            omega
          · show st.panicked = false → _
            intro hpp
            rw [← h7 hpp]
            show ((st.result ++ st.procs ++ (st.workers.set i (some p)).filterMap id ++ _ :
              List Proc) : Multiset Proc) = ((st.result ++ st.procs ++ st.pending ++ _ :
              List Proc) : Multiset Proc)
            have hm : (((st.workers.set i (some p)).filterMap id : List Proc) : Multiset Proc) =
                (p :: st.pending : List Proc) := Quotient.sound hperm
            rw [List.cons_append, accepted_cons, hone]
            simp only [coe_append, hm, coe_cons, Option.toList, Multiset.coe_nil]
            abel
        · have hone : acceptedOne sys filter stat = none := by
            simp only [acceptedOne, hn, hacc, Bool.false_eq_true, if_false]
          refine ⟨h.size_eq, h.stats_room, ?_, ?_, h.procs_le, ?_, hsub, ?_, hhandled,
            h.panic_cause⟩
          · show rest.length ≤ st.statsSent
            omega
          · show st.procsSent + st.pending.length + rest.length + st.files.length ≤ st.size
            omega
          · show st.procsSent + st.pending.length + rest.length ≤ st.statsSent
            omega
          · show st.panicked = false → _
            intro hpp
            rw [← h7 hpp]
            show ((st.result ++ st.procs ++ st.pending ++ _ : List Proc) : Multiset Proc) =
              ((st.result ++ st.procs ++ st.pending ++ _ : List Proc) : Multiset Proc)
            rw [List.cons_append, accepted_cons, hone]
            rfl
      · simp only
        refine ⟨h.size_eq, h.stats_room, ?_, ?_, h.procs_le, ?_, hsub, ?_, ?_, ?_⟩
        · show rest.length ≤ st.statsSent
          omega
        · show st.procsSent + st.pending.length + rest.length + st.files.length ≤ st.size
          omega
        · show st.procsSent + st.pending.length + rest.length ≤ st.statsSent
          omega
        · intro hpp
          exact absurd hpp (by simp)
        · intro hpp
          exact absurd hpp (by simp)
        · intro _
          exact ⟨stat, h6 stat (by simp), hn⟩
  · exact h

theorem scan_inv_step (sys : Sys) (filter : ProcFilter) (files : List (Option Str))
    (st : Scan) (a : Action) (h : Scan.Inv sys filter files st) :
    Scan.Inv sys filter files (Scan.step sys filter st a) := by
  by_cases hp : st.panicked = true
  · have : Scan.step sys filter st a = st := by
      unfold Scan.step
      rw [if_pos hp]
    rw [this]
    exact h
  · have hp2 : st.panicked = false := by simpa using hp
    cases a with
    | dispatch => exact scan_inv_dispatch sys filter files st h hp2
    | work i => exact scan_inv_work sys filter files st i h hp2
    | send i => exact scan_inv_send sys filter files st i h hp2
    | collect => exact scan_inv_collect sys filter files st h hp2

theorem scan_inv_run (sys : Sys) (filter : ProcFilter) (files : List (Option Str))
    (sched : List Action) (st : Scan) (h : Scan.Inv sys filter files st) :
    Scan.Inv sys filter files (Scan.run sys filter st sched) := by
  induction sched generalizing st with
  | nil => exact h
  | cons a as ih => exact ih _ (scan_inv_step sys filter files st a h)

/-- In every state a run of FilteredProcs reaches, the invariant holds. -/
theorem scan_inv_reach (sys : Sys) (filter : ProcFilter) (files : List (Option Str))
    (count : Nat) (sched : List Action) :
    Scan.Inv sys filter files (Scan.run sys filter (Scan.init files count) sched) :=
  scan_inv_run sys filter files sched _ (scan_inv_init sys filter files count)

/-! ## Scan pipeline: the serial schedule -/

theorem run_append (sys : Sys) (filter : ProcFilter) (st : Scan) (a b : List Action) :
    Scan.run sys filter st (a ++ b) = Scan.run sys filter (Scan.run sys filter st a) b := by
  simp [Scan.run, List.foldl_append]

/-- One round of the serial schedule on a state with empty channels and idle worker 0. -/
theorem serial_round (sys : Sys) (filter : ProcFilter) (st : Scan) (f : Option Str)
    (fs : List (Option Str)) (ws : List (Option Proc)) (hp : st.panicked = false)
    (hst : st.stats = []) (hpr : st.procs = []) (hw : st.workers = none :: ws)
    (hf : st.files = f :: fs) (hsz : 0 < st.size)
    (hnp : ∀ r, f = some r → NewProcFromStat sys r ≠ .panic) :
    (Scan.run sys filter st [.dispatch, .work 0, .send 0, .collect]).panicked = false ∧
    (Scan.run sys filter st [.dispatch, .work 0, .send 0, .collect]).stats = [] ∧
    (Scan.run sys filter st [.dispatch, .work 0, .send 0, .collect]).procs = [] ∧
    (Scan.run sys filter st [.dispatch, .work 0, .send 0, .collect]).workers = none :: ws ∧
    (Scan.run sys filter st [.dispatch, .work 0, .send 0, .collect]).files = fs ∧
    (Scan.run sys filter st [.dispatch, .work 0, .send 0, .collect]).size = st.size ∧
    (Scan.run sys filter st [.dispatch, .work 0, .send 0, .collect]).result =
      st.result ++ accepted sys filter (readRecords [f]) := by
  cases f with
  | none =>
    simp [Scan.run, Scan.step, hp, hst, hpr, hw, hf, accepted, readRecords]
  | some r =>
    rcases hn : NewProcFromStat sys r with ⟨p, err⟩ | _
    · by_cases hacc : filter.Filter p err = true
      · simp [Scan.run, Scan.step, hp, hst, hpr, hw, hf, hsz, accepted, readRecords, acceptedOne,
          hn, hacc]
      · simp [Scan.run, Scan.step, hp, hst, hpr, hw, hf, hsz, accepted, readRecords, acceptedOne,
          hn, hacc]
    · exact absurd hn (hnp r rfl)

theorem serial_run (sys : Sys) (filter : ProcFilter) (fs : List (Option Str)) (st : Scan)
    (ws : List (Option Proc)) (hp : st.panicked = false) (hst : st.stats = [])
    (hpr : st.procs = []) (hw : st.workers = none :: ws) (hf : st.files = fs)
    (hsz : fs.length ≤ st.size)
    (hnp : ∀ r ∈ readRecords fs, NewProcFromStat sys r ≠ .panic) :
    (Scan.run sys filter st (serialSched fs)).panicked = false ∧
    (Scan.run sys filter st (serialSched fs)).stats = [] ∧
    (Scan.run sys filter st (serialSched fs)).procs = [] ∧
    (Scan.run sys filter st (serialSched fs)).workers = none :: ws ∧
    (Scan.run sys filter st (serialSched fs)).files = [] ∧
    (Scan.run sys filter st (serialSched fs)).result =
      st.result ++ accepted sys filter (readRecords fs) := by
  induction fs generalizing st with
  | nil =>
    simp only [serialSched, Scan.run, List.foldl_nil]
    exact ⟨hp, hst, hpr, hw, hf, by simp [accepted, readRecords]⟩
  | cons f fs ih =>
    have hround := serial_round sys filter st f fs ws hp hst hpr hw hf
      (by simp only [List.length_cons] at hsz; omega)
      (fun r hr => hnp r (by subst hr; simp [readRecords]))
    obtain ⟨h1, h2, h3, h4, h5, h6, h7⟩ := hround
    have hrest := ih (Scan.run sys filter st [.dispatch, .work 0, .send 0, .collect]) h1 h2 h3 h4
      h5 (by rw [h6]; simp only [List.length_cons] at hsz; omega)
      (fun r hr => hnp r (by
        cases f with
        | none => simpa [readRecords] using hr
        | some d =>
          rw [readRecords_some]
          exact List.mem_cons_of_mem _ hr))
    have hsched : serialSched (f :: fs) =
        [.dispatch, .work 0, .send 0, .collect] ++ serialSched fs := rfl
    rw [hsched, run_append]
    obtain ⟨r1, r2, r3, r4, r5, r6⟩ := hrest
    refine ⟨r1, r2, r3, r4, r5, ?_⟩
    rw [r6, h7, List.append_assoc, ← accepted_append]
    have : readRecords [f] ++ readRecords fs = readRecords (f :: fs) := by
      cases f <;> simp [readRecords]
    rw [this]

/-- With at least one worker and no record on which NewProcFromStat panics, the serial
schedule runs the scan to its end: FilteredProcs returns the accepted descriptors, sorted. -/
theorem filteredProcs_serial (sys : Sys) (filter : ProcFilter) (files : List (Option Str))
    (count : Nat) (hcount : 0 < count)
    (hnp : ∀ r ∈ readRecords files, NewProcFromStat sys r ≠ .panic) :
    FilteredProcs sys filter files count (serialSched files) =
      some (.ok (sortSort ProcByPid.Less (accepted sys filter (readRecords files)))) := by
  obtain ⟨n, rfl⟩ : ∃ n, count = n + 1 := ⟨count - 1, by omega⟩
  have h := serial_run sys filter files (Scan.init files (n + 1)) (List.replicate n none) rfl rfl
    rfl (by simp [Scan.init, List.replicate_succ]) rfl (by simp [Scan.init]) hnp
  obtain ⟨h1, h2, h3, h4, h5, h6⟩ := h
  unfold FilteredProcs
  simp only [h1, Bool.false_eq_true, if_false]
  have hfin : (Scan.run sys filter (Scan.init files (n + 1)) (serialSched files)).finished
      = true := by
    simp [Scan.finished, h2, h3, h4, h5]
  rw [if_pos hfin, h6]
  rfl

/-! ## Scan pipeline: the returned list -/

theorem sortInsert_perm {α : Type} (less : α → α → Bool) (x : α) (l : List α) :
    (sortInsert less x l).Perm (x :: l) := by
  induction l with
  | nil => exact List.Perm.refl _
  | cons y ys ih =>
    unfold sortInsert
    split_ifs
    · exact List.Perm.refl _
    · exact (List.Perm.cons y ih).trans (List.Perm.swap x y ys)

theorem foldl_sortInsert_perm {α : Type} (less : α → α → Bool) (data sorted : List α) :
    (data.foldl (fun sorted x => sortInsert less x sorted) sorted).Perm (sorted ++ data) := by
  induction data generalizing sorted with
  | nil => simp
  | cons x xs ih =>
    refine (ih (sortInsert less x sorted)).trans ?_
    refine ((sortInsert_perm less x sorted).append_right xs).trans ?_
    simpa using (@List.perm_middle _ x sorted xs).symm

theorem sortSort_perm {α : Type} (less : α → α → Bool) (data : List α) :
    (sortSort less data).Perm data := by
  simpa [sortSort] using foldl_sortInsert_perm less data []

theorem filterMap_id_of_all_none (ws : List (Option Proc))
    (h : ws.all (fun w => w.isNone) = true) : ws.filterMap id = [] := by
  induction ws with
  | nil => rfl
  | cons w ws ih =>
    simp only [List.all_cons, Bool.and_eq_true] at h
    cases w with
    | none => simpa using ih h.2
    | some p => simp at h

theorem finished_fields (st : Scan) (h : st.finished = true) :
    st.files = [] ∧ st.stats = [] ∧ st.pending = [] ∧ st.procs = [] := by
  simp only [Scan.finished, Bool.and_eq_true, List.isEmpty_iff] at h
  exact ⟨h.1.1.1, h.1.1.2, filterMap_id_of_all_none _ h.1.2, h.2⟩

/-- What a returned list is: the sorted arrival list of a run that ended without panic. -/
theorem filteredProcs_ok (sys : Sys) (filter : ProcFilter) (files : List (Option Str))
    (count : Nat) (sched : List Action) (result : List Proc)
    (h : FilteredProcs sys filter files count sched = some (.ok result)) :
    (Scan.run sys filter (Scan.init files count) sched).panicked = false ∧
    (Scan.run sys filter (Scan.init files count) sched).finished = true ∧
    result =
      sortSort ProcByPid.Less (Scan.run sys filter (Scan.init files count) sched).result := by
  unfold FilteredProcs at h
  simp only at h
  split_ifs at h with hp hfin
  · simp at h
  · simp only [Option.some.injEq, Outcome.ok.injEq] at h
    exact ⟨by simpa using hp, hfin, h.symm⟩

/-- The list a run returns is a permutation of the accepted descriptors of the records. -/
theorem filteredProcs_perm (sys : Sys) (filter : ProcFilter) (files : List (Option Str))
    (count : Nat) (sched : List Action) (result : List Proc)
    (h : FilteredProcs sys filter files count sched = some (.ok result)) :
    result.Perm (accepted sys filter (readRecords files)) := by
  obtain ⟨hp, hfin, hres⟩ := filteredProcs_ok sys filter files count sched result h
  obtain ⟨hf, hs, hpend, hprocs⟩ := finished_fields _ hfin
  have hinv := (scan_inv_reach sys filter files count sched).conserved hp
  rw [hf, hs, hpend, hprocs] at hinv
  simp only [List.append_nil, readRecords, List.filterMap_nil, accepted] at hinv
  have hperm : (Scan.run sys filter (Scan.init files count) sched).result.Perm
      (accepted sys filter (readRecords files)) := Quotient.exact hinv
  rw [hres]
  exact (sortSort_perm _ _).trans hperm

/-- A run that returns a list has met no record on which NewProcFromStat panics. -/
theorem filteredProcs_no_panic (sys : Sys) (filter : ProcFilter) (files : List (Option Str))
    (count : Nat) (sched : List Action) (result : List Proc)
    (h : FilteredProcs sys filter files count sched = some (.ok result)) :
    ∀ r ∈ readRecords files, NewProcFromStat sys r ≠ .panic := by
  obtain ⟨hp, hfin, _⟩ := filteredProcs_ok sys filter files count sched result h
  obtain ⟨hf, hs, _, _⟩ := finished_fields _ hfin
  intro r hr
  rcases (scan_inv_reach sys filter files count sched).handled hp r hr with hmem | hnp
  · rw [hf, hs] at hmem
    simp [readRecords] at hmem
  · exact hnp

theorem mem_accepted (sys : Sys) (filter : ProcFilter) (records : List Str) (d : Proc) :
    d ∈ accepted sys filter records ↔
      ∃ record ∈ records, ∃ err, NewProcFromStat sys record = .ok (d, err) ∧
        filter.Filter d err = true := by
  unfold accepted
  rw [List.mem_filterMap]
  constructor
  · rintro ⟨record, hmem, hacc⟩
    refine ⟨record, hmem, ?_⟩
    unfold acceptedOne at hacc
    rcases hn : NewProcFromStat sys record with ⟨p, err⟩ | _
    · rw [hn] at hacc
      simp only at hacc
      by_cases hf : filter.Filter p err = true
      · simp only [hf, if_true, Option.some.injEq] at hacc
        subst hacc
        exact ⟨err, rfl, hf⟩
      · simp [hf] at hacc
    · rw [hn] at hacc
      exact absurd hacc (by simp)
  · rintro ⟨record, hmem, err, hn, hf⟩
    exact ⟨record, hmem, by simp only [acceptedOne, hn, hf, if_true]⟩

theorem builtin_filter_rejects_error (sys : Sys) (scope : Str) (p : Proc) (e : GoError) :
    (GetFilterer sys scope).Filter p (some e) = false := by
  unfold GetFilterer
  simp only [ProcFilter.Filter]
  split_ifs <;> rfl

/-- C11 (as stated, refuted): Load fails on the record with the command "(my proc (v2))"
(expected integer), NewProcFromStat returns its half-loaded descriptor with that error, and
under a Filterer that accepts every pair the scan returns this descriptor (Comm "my", State
"proc") next to the one of the cron record: the record whose parse fails is not dropped. -/
theorem filteredProcs_keeps_failed_record :
    (ProcStat.Load sampleSys.intBits {} spacedRecord).2 = some GoError.expectedInteger ∧
    NewProcFromStat sampleSys spacedRecord =
      .ok ({ toProcStat := (ProcStat.Load sampleSys.intBits {} spacedRecord).1 },
        some GoError.expectedInteger) ∧
    acceptAnyFilter.Filter { toProcStat := (ProcStat.Load sampleSys.intBits {} spacedRecord).1 }
      (some GoError.expectedInteger) = true ∧
    FilteredProcs sampleSys acceptAnyFilter [some cronRecord, some spacedRecord] 1
        (serialSched [some cronRecord, some spacedRecord]) =
      some (.ok (accepted sampleSys acceptAnyFilter [cronRecord, spacedRecord])) ∧
    returnedComms (FilteredProcs sampleSys acceptAnyFilter [some cronRecord, some spacedRecord] 1
        (serialSched [some cronRecord, some spacedRecord])) =
      some ["cron".toList, "my".toList] ∧
    (ProcStat.Load sampleSys.intBits {} spacedRecord).1.State = "proc".toList :=
  ⟨rfl, rfl, rfl, by decide!, by decide!, by decide!⟩

/-- C11 (amended): for every filter, every number of workers and every schedule, a list that
FilteredProcs returns is a permutation of the accepted descriptors of the successfully read
records: each returned descriptor is NewProcFromStat of a record and satisfies the filter,
each accepted descriptor is returned, with the same number of occurrences. A record whose
Load fails makes NewProcFromStat return (it does not panic) its descriptor with the error of
Load; it is dropped exactly when the filter rejects that pair, as every filter of GetFilterer
does. When no record makes NewProcFromStat panic, the scan with at least one worker runs to
its end and returns a list under the serial schedule. -/
theorem filteredProcs_multiset (sys : Sys) (filter : ProcFilter) (files : List (Option Str))
    (count : Nat) :
    (∀ sched result, FilteredProcs sys filter files count sched = some (.ok result) →
      result.Perm (accepted sys filter (readRecords files)) ∧
      (∀ d ∈ result, ∃ record ∈ readRecords files, ∃ err,
        NewProcFromStat sys record = .ok (d, err) ∧ filter.Filter d err = true) ∧
      (∀ record ∈ readRecords files, ∀ d err, NewProcFromStat sys record = .ok (d, err) →
        filter.Filter d err = true → d ∈ result) ∧
      (∀ d, result.count d = (accepted sys filter (readRecords files)).count d)) ∧
    (∀ record e, (ProcStat.Load sys.intBits {} record).2 = some e →
      ∃ d, NewProcFromStat sys record = .ok (d, some e) ∧
        (acceptedOne sys filter record = none ↔ filter.Filter d (some e) = false) ∧
        ∀ scope, (GetFilterer sys scope).Filter d (some e) = false ∧
          acceptedOne sys (GetFilterer sys scope) record = none) ∧
    (0 < count → (∀ r ∈ readRecords files, NewProcFromStat sys r ≠ .panic) →
      ∃ result, FilteredProcs sys filter files count (serialSched files) = some (.ok result)) := by
  refine ⟨?_, ?_, fun hc hnp => ⟨_, filteredProcs_serial sys filter files count hc hnp⟩⟩
  · intro sched result h
    have hperm := filteredProcs_perm sys filter files count sched result h
    refine ⟨hperm, ?_, ?_, fun d => hperm.count_eq d⟩
    · intro d hd
      exact (mem_accepted sys filter _ d).mp (hperm.mem_iff.mp hd)
    · intro record hmem d err hn hf
      exact hperm.mem_iff.mpr ((mem_accepted sys filter _ d).mpr ⟨record, hmem, err, hn, hf⟩)
  · intro record e hl
    have hn := newProcFromStat_of_load_error sys record e hl
    refine ⟨_, hn, ?_, ?_⟩
    · simp only [acceptedOne, hn]
      by_cases hf : filter.Filter
          { toProcStat := (ProcStat.Load sys.intBits {} record).1 } (some e) = true
      · simp [hf]
      · simp [hf]
    · intro scope
      have hrej := builtin_filter_rejects_error sys scope
        { toProcStat := (ProcStat.Load sys.intBits {} record).1 } e
      exact ⟨hrej, by simp only [acceptedOne, hn, hrej, Bool.false_eq_true, if_false]⟩

/-! ## Scan pipeline: determinism and queue bounds -/

theorem sorted_perm_unique (l1 l2 : List Proc) (hperm : l1.Perm l2)
    (h1 : l1.Pairwise (fun a b => a.Pid ≤ b.Pid)) (h2 : l2.Pairwise (fun a b => a.Pid ≤ b.Pid))
    (hd : l2.Pairwise (fun a b => a.Pid ≠ b.Pid)) : l1 = l2 := by
  have hd1 : l1.Pairwise (fun a b => a.Pid ≠ b.Pid) :=
    (hperm.pairwise_iff (fun h => Ne.symm h)).mpr hd
  have hs1 : l1.Pairwise (fun a b => a.Pid < b.Pid) :=
    (h1.and hd1).imp (fun h => lt_of_le_of_ne h.1 h.2)
  have hs2 : l2.Pairwise (fun a b => a.Pid < b.Pid) :=
    (h2.and hd).imp (fun h => lt_of_le_of_ne h.1 h.2)
  haveI : IsAntisymm Proc (fun a b => a.Pid < b.Pid) :=
    ⟨fun a b hab hba => absurd hab (not_lt_of_gt hba)⟩
  exact List.eq_of_perm_of_sorted hperm hs1 hs2

/-- C17 (as stated, refuted): on two files whose records carry the same pid, two schedules of
the same two workers return the two descriptors in different orders. -/
theorem filteredProcs_order_depends_on_schedule :
    returnedComms (FilteredProcs sampleSys (GetFilterer sampleSys "all".toList) twinFiles 2
      twinSchedA) = some ["cron".toList, "anacron".toList] ∧
    returnedComms (FilteredProcs sampleSys (GetFilterer sampleSys "all".toList) twinFiles 2
      twinSchedB) = some ["anacron".toList, "cron".toList] ∧
    FilteredProcs sampleSys (GetFilterer sampleSys "all".toList) twinFiles 2 twinSchedA ≠
      FilteredProcs sampleSys (GetFilterer sampleSys "all".toList) twinFiles 2 twinSchedB := by
  have hA : returnedComms (FilteredProcs sampleSys (GetFilterer sampleSys "all".toList)
      twinFiles 2 twinSchedA) = some ["cron".toList, "anacron".toList] := by decide!
  have hB : returnedComms (FilteredProcs sampleSys (GetFilterer sampleSys "all".toList)
      twinFiles 2 twinSchedB) = some ["anacron".toList, "cron".toList] := by decide!
  refine ⟨hA, hB, ?_⟩
  intro h
  rw [h, hB] at hA
  exact absurd hA (by decide)

/-- C17 (amended): when the accepted descriptors of the records have pairwise distinct
pids, every run of FilteredProcs on these records that returns a list returns the same list,
the sorted list of the accepted descriptors, whatever the number of workers and the
schedule; no run on these records panics once one run has returned. -/
theorem filteredProcs_deterministic (sys : Sys) (filter : ProcFilter)
    (files : List (Option Str)) (count : Nat) (sched : List Action) (result : List Proc)
    (hdistinct : (accepted sys filter (readRecords files)).Pairwise
      (fun a b => a.Pid ≠ b.Pid))
    (h : FilteredProcs sys filter files count sched = some (.ok result)) :
    result = sortSort ProcByPid.Less (accepted sys filter (readRecords files)) ∧
    ∀ count2 sched2, FilteredProcs sys filter files count2 sched2 = none ∨
      FilteredProcs sys filter files count2 sched2 = some (.ok result) := by
  have hcanon : ∀ c s r, FilteredProcs sys filter files c s = some (.ok r) →
      r = sortSort ProcByPid.Less (accepted sys filter (readRecords files)) := by
    intro c s r hr
    have hperm := filteredProcs_perm sys filter files c s r hr
    have hsorted : r.Pairwise (fun a b => a.Pid ≤ b.Pid) := by
      rw [(filteredProcs_ok sys filter files c s r hr).2.2]
      exact sortSort_pairwise _
    have hperm2 : r.Perm (sortSort ProcByPid.Less (accepted sys filter (readRecords files))) :=
      hperm.trans (sortSort_perm _ _).symm
    exact sorted_perm_unique r _ hperm2 hsorted (sortSort_pairwise _)
      (((sortSort_perm _ _).pairwise_iff (fun h => Ne.symm h)).mpr hdistinct)
  refine ⟨hcanon count sched result h, ?_⟩
  intro count2 sched2
  have hnp := filteredProcs_no_panic sys filter files count sched result h
  have hinv := scan_inv_reach sys filter files count2 sched2
  cases hp : (Scan.run sys filter (Scan.init files count2) sched2).panicked with
  | true =>
    obtain ⟨r, hr, hpanic⟩ := hinv.panic_cause hp
    exact absurd hpanic (hnp r hr)
  | false =>
    cases hfin : (Scan.run sys filter (Scan.init files count2) sched2).finished with
    | false =>
      left
      simp only [FilteredProcs, hp, hfin, Bool.false_eq_true, if_false]
    | true =>
      right
      have h2 : FilteredProcs sys filter files count2 sched2 =
          some (.ok (sortSort ProcByPid.Less
            (Scan.run sys filter (Scan.init files count2) sched2).result)) := by
        simp only [FilteredProcs, hp, hfin, Bool.false_eq_true, if_false, if_true]
      rw [h2, hcanon count2 sched2 _ h2, hcanon count sched result h]

theorem filteredProcs_deterministic_witness :
    (accepted sampleSys (GetFilterer sampleSys "all".toList) (readRecords sampleFiles)).map
      (fun p => p.Pid) = [7, 14066] ∧
    FilteredProcs sampleSys (GetFilterer sampleSys "all".toList) sampleFiles 2 sampleSched =
      some (.ok sampleScanResult) ∧
    (FilteredProcs sampleSys (GetFilterer sampleSys "all".toList) sampleFiles 1
        (serialSched sampleFiles) = none ∨
      FilteredProcs sampleSys (GetFilterer sampleSys "all".toList) sampleFiles 1
        (serialSched sampleFiles) = some (.ok sampleScanResult)) ∧
    FilteredProcs sampleSys (GetFilterer sampleSys "all".toList) sampleFiles 1
        (serialSched sampleFiles) ≠ none :=
  ⟨by decide!, by decide!,
   (filteredProcs_deterministic sampleSys (GetFilterer sampleSys "all".toList) sampleFiles 2
      sampleSched sampleScanResult (by decide!) (by decide!)).2 1 (serialSched sampleFiles),
   by decide!⟩

/-- C18: in every state that a run of FilteredProcs reaches, the number of sends on stats and
the number of sends on procs are at most the number of discovered files, which is the
capacity of both channels; there are at most as many sends on procs as on stats; and whenever
the dispatcher has a file left (a send on stats may follow) or a worker holds a descriptor
(a send on procs follows), the channel concerned is not full. -/
theorem queue_sends_bounded (sys : Sys) (filter : ProcFilter) (files : List (Option Str))
    (count : Nat) (sched : List Action) :
    (Scan.run sys filter (Scan.init files count) sched).size = files.length ∧
    (Scan.run sys filter (Scan.init files count) sched).statsSent ≤ files.length ∧
    (Scan.run sys filter (Scan.init files count) sched).procsSent ≤ files.length ∧
    (Scan.run sys filter (Scan.init files count) sched).procsSent ≤
      (Scan.run sys filter (Scan.init files count) sched).statsSent ∧
    ((Scan.run sys filter (Scan.init files count) sched).files ≠ [] →
      (Scan.run sys filter (Scan.init files count) sched).stats.length <
        (Scan.run sys filter (Scan.init files count) sched).size) ∧
    ((Scan.run sys filter (Scan.init files count) sched).pending ≠ [] →
      (Scan.run sys filter (Scan.init files count) sched).procs.length <
        (Scan.run sys filter (Scan.init files count) sched).size) := by
  have h := scan_inv_reach sys filter files count sched
  have h1 := h.size_eq
  have h2 := h.stats_room
  have h3 := h.stats_le
  have h4 := h.procs_room
  have h5 := h.procs_le
  have h6 := h.one_result
  refine ⟨h1, by omega, by omega, by omega, ?_, ?_⟩
  · intro hne
    have : 0 < (Scan.run sys filter (Scan.init files count) sched).files.length :=
      List.length_pos.mpr hne
    omega
  · intro hne
    have : 0 < (Scan.run sys filter (Scan.init files count) sched).pending.length :=
      List.length_pos.mpr hne
    omega

theorem queue_sends_bounded_witness :
    (Scan.run sampleSys (GetFilterer sampleSys "all".toList) (Scan.init sampleFiles 2)
      (sampleSched.take 5)).pending ≠ [] ∧
    (Scan.run sampleSys (GetFilterer sampleSys "all".toList) (Scan.init sampleFiles 2)
      (sampleSched.take 5)).procs.length < 3 ∧
    (Scan.run sampleSys (GetFilterer sampleSys "all".toList) (Scan.init sampleFiles 2)
      sampleSched).statsSent = 2 ∧
    (Scan.run sampleSys (GetFilterer sampleSys "all".toList) (Scan.init sampleFiles 2)
      sampleSched).procsSent = 2 :=
  ⟨by decide!,
   (queue_sends_bounded sampleSys (GetFilterer sampleSys "all".toList) sampleFiles 2
      (sampleSched.take 5)).2.2.2.2.2 (by decide!),
   by decide!, by decide!⟩

theorem filteredProcs_multiset_witness :
    FilteredProcs sampleSys (GetFilterer sampleSys "all".toList) sampleFiles 2 sampleSched =
      some (.ok sampleScanResult) ∧
    sampleScanResult.Perm
      (accepted sampleSys (GetFilterer sampleSys "all".toList) (readRecords sampleFiles)) ∧
    (ProcStat.Load sampleSys.intBits {} spacedRecord).2 = some GoError.expectedInteger ∧
    (∃ d, NewProcFromStat sampleSys spacedRecord = .ok (d, some GoError.expectedInteger) ∧
      (acceptedOne sampleSys (GetFilterer sampleSys "all".toList) spacedRecord = none ↔
        (GetFilterer sampleSys "all".toList).Filter d (some GoError.expectedInteger) = false) ∧
      ∀ scope, (GetFilterer sampleSys scope).Filter d (some GoError.expectedInteger) = false ∧
        acceptedOne sampleSys (GetFilterer sampleSys scope) spacedRecord = none) ∧
    (∃ result, FilteredProcs sampleSys (GetFilterer sampleSys "all".toList)
      [some spacedRecord, some nvimRecord] 1 (serialSched [some spacedRecord, some nvimRecord])
      = some (.ok result)) :=
  ⟨by decide!,
   ((filteredProcs_multiset sampleSys (GetFilterer sampleSys "all".toList) sampleFiles 2).1
      sampleSched sampleScanResult (by decide!)).1,
   rfl,
   (filteredProcs_multiset sampleSys (GetFilterer sampleSys "all".toList) sampleFiles 2).2.1
      spacedRecord GoError.expectedInteger rfl,
   (filteredProcs_multiset sampleSys (GetFilterer sampleSys "all".toList)
      [some spacedRecord, some nvimRecord] 1).2.2 (by decide) (by decide!)⟩

end Goprocfs
